import Mathlib

/-!
# rancher/netconf: link matching and configuration application

A shallow embedding of `netconf_linux.go`.

* Go strings are Lean strings, compared as such. Where the program counts or slices bytes
  (`len(s)`, `s[:3]`, `s[4:]` at lines 92-93) the model works on `bytes s`, the UTF-8 encoding
  of the string; a slice that need not be valid UTF-8 any more, such as the argument of
  `net.ParseMAC`, is a list of bytes.
* A Go `error` is its message; `nil` is `none`.
* The operating system and the external libraries (`net`, `netlink`, `go-glob`, `os/exec`) are
  an explicit environment `Env σ` over an arbitrary world state `σ`: every mutation is an `Op`
  whose outcome and effect on the world are chosen by the environment, and every function of
  the program returns the list of operations it requested together with the new world.
* Iterating a Go map visits the entries in an unspecified order, so a scan of
  `netCfg.Interfaces` is a list of `(key, entry)` pairs and statements about "every scan order"
  quantify over the permutations of that list.
* Calls to the logger have no effect on control flow and are left out.
-/

set_option autoImplicit false

namespace Netconf

/-! ## Data model -/

/-- A Go `error`, identified with its message. -/
abbrev Error := String

deriving instance DecidableEq for Except

/-- Modelled from the spec: the declaration of `InterfaceConfig` (the file declaring the types is
not among the sources); the fields are the ones `netconf_linux.go` reads, and the default of
every field is the Go zero value. -/
structure InterfaceConfig where
  Match : String := ""
  Bridge : Bool := false
  DHCP : Bool := false
  Address : String := ""
  Gateway : String := ""
  MTU : Int := 0
  IPV4LL : Bool := false
  deriving DecidableEq, Repr

/-- Modelled from the spec: the declaration of `NetworkConfig` (same missing file). The map
`Interfaces` is the list of its `(key, entry)` pairs. -/
structure NetworkConfig where
  Script : String := ""
  Interfaces : List (String × InterfaceConfig) := []
  deriving DecidableEq, Repr

/-- The attributes of a `netlink.Link` that the program reads. -/
structure Link where
  Name : String
  HardwareAddr : List Nat
  deriving DecidableEq, Repr

/-- A parsed `netlink.Addr`: address bytes, mask bytes and label. -/
structure Addr where
  IP : List Nat
  Mask : List Nat
  Label : String := ""
  deriving DecidableEq, Repr

/-- The fields of `netlink.Route` that `applyNetConf` sets. -/
structure Route where
  Scope : Nat
  Gw : List Nat
  deriving DecidableEq, Repr

/-- The constant `netlink.SCOPE_UNIVERSE`. -/
def SCOPE_UNIVERSE : Nat := 0

/-- The constant `CONF`. -/
def CONF : String := "/var/lib/rancher/conf"

/-- The constant `NET_SCRIPT`. -/
def NET_SCRIPT : String := "/var/lib/rancher/conf/network.sh"

/-- The requests the program makes to the operating system. -/
inductive Op where
  /-- The call `os.Stat(path)`. -/
  | stat (path : String)
  /-- The call `os.MkdirAll(path, perm)`. -/
  | mkdirAll (path : String) (perm : Nat)
  /-- The call `ioutil.WriteFile(path, data, perm)`. -/
  | writeFile (path : String) (data : String) (perm : Nat)
  /-- Running `exec.Command(name, args...)` to completion. -/
  | command (name : String) (args : List String)
  /-- The call `netlink.LinkAdd` of a bridge with the given name. -/
  | linkAddBridge (name : String)
  /-- The call `AssignLinkLocalIP(link)`. -/
  | assignLinkLocalIP (link : Link)
  /-- The call `netlink.AddrAdd(link, addr)`. -/
  | addrAdd (link : Link) (addr : Addr)
  /-- The call `netlink.LinkSetMTU(link, mtu)`. -/
  | linkSetMTU (link : Link) (mtu : Int)
  /-- The call `netlink.LinkSetUp(link)`. -/
  | linkSetUp (link : Link)
  /-- The call `netlink.RouteAdd(&route)`. -/
  | routeAdd (route : Route)
  deriving DecidableEq, Repr

/-- The world outside the program: the pure library functions it calls and the behaviour of the
operating system. `exec op w` is the error returned by the request `op` in world `w` (`none` for
`nil`) and the world afterwards; nothing is assumed about it. `AssignLinkLocalIP` belongs to this
repository but its file is not among the sources, so it is an operation like the others. -/
structure Env (σ : Type) where
  /-- The function `net.ParseMAC`, on the bytes of its argument. -/
  ParseMAC : List Nat → Except Error (List Nat)
  /-- The function `netlink.ParseAddr`. -/
  ParseAddr : String → Except Error Addr
  /-- The function `net.ParseIP`; `none` is the `nil` result. -/
  ParseIP : String → Option (List Nat)
  /-- The function `glob.Glob(pattern, subj)`. -/
  Glob : String → String → Bool
  /-- The predicate `os.IsNotExist` on the error returned by `os.Stat`. -/
  IsNotExist : Option Error → Bool
  /-- The call `netlink.LinkList()`. -/
  LinkList : σ → Except Error (List Link)
  /-- The outcome of a request. -/
  exec : Op → σ → Option Error × σ

/-- What a function of the program leaves behind: the error it returns, the operations it
requested, in order, and the world after them. -/
structure Outcome (σ : Type) where
  err : Option Error
  ops : List Op
  world : σ

variable {σ : Type}

/-! ## Pattern matcher and match resolver -/

/-- The function `matches(link, conf)`. -/
def «matches» (env : Env σ) (link conf : String) : Bool :=
  env.Glob conf link

/-- The UTF-8 encoding of a character. -/
def utf8 (c : Char) : List Nat :=
  let n := c.toNat
  if n < 0x80 then [n]
  else if n < 0x800 then [0xC0 + n / 0x40, 0x80 + n % 0x40]
  else if n < 0x10000 then [0xE0 + n / 0x1000, 0x80 + n / 0x40 % 0x40, 0x80 + n % 0x40]
  else [0xF0 + n / 0x40000, 0x80 + n / 0x1000 % 0x40, 0x80 + n / 0x40 % 0x40, 0x80 + n % 0x40]

/-- The bytes of a list of characters. -/
def bytesOf : List Char → List Nat
  | [] => []
  | c :: cs => utf8 c ++ bytesOf cs

/-- The bytes of a Go string: `len(s)` is `(bytes s).length`, and `s[i:j]` slices `bytes s`. -/
def bytes (s : String) : List Nat :=
  bytesOf s.data

/-- The function `strings.ToLower` on a slice of bytes, as far as the comparison of line 92 can
tell: the upper-case ASCII letters are mapped to lower case and every other byte is left as it
is. (The library maps a byte outside ASCII to a character outside ASCII, so a three-byte slice is
mapped to `mac` exactly when its bytes are the letters `m`, `a`, `c` in either case.) -/
def ToLower (s : List Nat) : List Nat :=
  s.map (fun b => if 0x41 ≤ b ∧ b ≤ 0x5A then b + 0x20 else b)

/-- The test of line 92: `len(netConf.Match) > 4 && strings.ToLower(netConf.Match[:3]) == "mac"`,
on the bytes of the match string. -/
def isMacForm (s : String) : Bool :=
  decide ((bytes s).length > 4) && decide (ToLower ((bytes s).take 3) = bytes "mac")

/-- Lines 84-86: an entry with an empty `Match` takes its map key as match string. -/
def withKey (key : String) (netConf : InterfaceConfig) : InterfaceConfig :=
  if netConf.Match = "" then { netConf with Match := key } else netConf

/-- Lines 92-102 for one entry: the parse error that ends the run, or whether the scan breaks
with this entry as the match. -/
def macStep (env : Env σ) (link : Link) (netConf : InterfaceConfig) : Except Error Bool :=
  if isMacForm netConf.Match then
    match env.ParseMAC ((bytes netConf.Match).drop 4) with
    | .error err => .error err
    | .ok haAddr => .ok (decide (haAddr = link.HardwareAddr))
  else .ok false

/-- Lines 104-112 for one entry: the glob test, then the exact test, on the current `match`. -/
def nameStep (env : Env σ) (link : Link) (netConf «match» : InterfaceConfig) : InterfaceConfig :=
  let m1 := if «match».Match = "" ∧ «matches» env link.Name netConf.Match = true then netConf
            else «match»
  if netConf.Match = link.Name then netConf else m1

/-- The loop of lines 83-113 over the entries in the order `scan`, from the current value of
`match`: the error of line 95, or the value of `match` when the loop ends. -/
def scanEntries (env : Env σ) (link : Link) :
    List (String × InterfaceConfig) → InterfaceConfig → Except Error InterfaceConfig
  | [], «match» => .ok «match»
  | (key, netConf) :: rest, «match» =>
    let netConf := withKey key netConf
    if netConf.Match = "" then scanEntries env link rest «match»
    else
      match macStep env link netConf with
      | .error err => .error err
      | .ok true => .ok netConf
      | .ok false => scanEntries env link rest (nameStep env link netConf «match»)

/-- Lines 81-113: `var match InterfaceConfig` followed by the scan. -/
def resolve (env : Env σ) (link : Link) (scan : List (String × InterfaceConfig)) :
    Except Error InterfaceConfig :=
  scanEntries env link scan {}

/-- The entry selected for the link: line 115 takes `match` as selected when `match.Match != ""`. -/
def selected («match» : InterfaceConfig) : Option InterfaceConfig :=
  if «match».Match ≠ "" then some «match» else none

/-! ## Interface configurator -/

/-- Lines 163-193 of `applyNetConf`: the MTU, link-up and gateway steps, from world `w`. -/
def applyNetConfSteps (env : Env σ) (link : Link) (netConf : InterfaceConfig) (w : σ) :
    Outcome σ :=
  let mtu : Outcome σ :=
    if netConf.MTU > 0 then
      let r := env.exec (.linkSetMTU link netConf.MTU) w
      ⟨r.1, [.linkSetMTU link netConf.MTU], r.2⟩
    else ⟨none, [], w⟩
  match mtu.err with
  | some err => ⟨some err, mtu.ops, mtu.world⟩
  | none =>
    let up := env.exec (.linkSetUp link) mtu.world
    match up.1 with
    | some err => ⟨some err, mtu.ops ++ [.linkSetUp link], up.2⟩
    | none =>
      if netConf.Gateway ≠ "" then
        match env.ParseIP netConf.Gateway with
        | none =>
          ⟨some ("Invalid gateway address " ++ netConf.Gateway), mtu.ops ++ [.linkSetUp link], up.2⟩
        | some gatewayIp =>
          let route : Route := { Scope := SCOPE_UNIVERSE, Gw := gatewayIp }
          let r := env.exec (.routeAdd route) up.2
          ⟨r.1, mtu.ops ++ [.linkSetUp link, .routeAdd route], r.2⟩
      else ⟨none, mtu.ops ++ [.linkSetUp link], up.2⟩

/-- The function `applyNetConf`: lines 143-161 choose the address step, then the steps of
lines 163-193 follow. The error of `netlink.AddrAdd` is dropped (line 156). -/
def applyNetConf (env : Env σ) (link : Link) (netConf : InterfaceConfig) (w : σ) : Outcome σ :=
  if netConf.IPV4LL then
    let r := env.exec (.assignLinkLocalIP link) w
    match r.1 with
    | some err => ⟨some err, [.assignLinkLocalIP link], r.2⟩
    | none =>
      let rest := applyNetConfSteps env link netConf r.2
      ⟨rest.err, .assignLinkLocalIP link :: rest.ops, rest.world⟩
  else if netConf.Address = "" then ⟨none, [], w⟩
  else
    match env.ParseAddr netConf.Address with
    | .error err => ⟨some err, [], w⟩
    | .ok addr =>
      let r := env.exec (.addrAdd link addr) w
      let rest := applyNetConfSteps env link netConf r.2
      ⟨rest.err, .addrAdd link addr :: rest.ops, rest.world⟩

/-! ## The run -/

/-- The function `runScript`. -/
def runScript (env : Env σ) (netCfg : NetworkConfig) (w : σ) : Outcome σ :=
  if netCfg.Script = "" then ⟨none, [], w⟩
  else
    let st := env.exec (.stat CONF) w
    let mk : Outcome σ :=
      if env.IsNotExist st.1 then
        let r := env.exec (.mkdirAll CONF 0o700) st.2
        ⟨r.1, [.stat CONF, .mkdirAll CONF 0o700], r.2⟩
      else ⟨none, [.stat CONF], st.2⟩
    match mk.err with
    | some err => ⟨some err, mk.ops, mk.world⟩
    | none =>
      let wr := env.exec (.writeFile NET_SCRIPT netCfg.Script 0o700) mk.world
      match wr.1 with
      | some err => ⟨some err, mk.ops ++ [.writeFile NET_SCRIPT netCfg.Script 0o700], wr.2⟩
      | none =>
        let r := env.exec (.command NET_SCRIPT []) wr.2
        ⟨r.1, mk.ops ++ [.writeFile NET_SCRIPT netCfg.Script 0o700, .command NET_SCRIPT []], r.2⟩

/-- The function `createInterfaces` over the entries in the order `scan`: a bridge is requested
for every entry with `Bridge` set, the errors are only logged and the result is always `nil`. -/
def createInterfaces (env : Env σ) : List (String × InterfaceConfig) → σ → Outcome σ
  | [], w => ⟨none, [], w⟩
  | (name, iface) :: rest, w =>
    if iface.Bridge then
      let r := env.exec (.linkAddBridge name) w
      let tail := createInterfaces env rest r.2
      ⟨tail.err, .linkAddBridge name :: tail.ops, tail.world⟩
    else createInterfaces env rest w

/-- The variables of `ApplyNetworkConfigs` that the link loop changes: the function-scope `err`
(assigned at line 118 only; the `err` of lines 93 and 130 are new variables of inner scopes),
`dhcpLinks`, and the operations requested so far with the world they left. -/
structure LoopState (σ : Type) where
  err : Option Error
  dhcpLinks : List String
  ops : List Op
  world : σ

/-- Lines 115-121: what the loop does with the `match` resolved for a link. -/
def applyMatch (env : Env σ) (link : Link) («match» : InterfaceConfig) (st : LoopState σ) :
    LoopState σ :=
  if «match».Match ≠ "" then
    if «match».DHCP then { st with dhcpLinks := st.dhcpLinks ++ [link.Name] }
    else
      let r := applyNetConf env link «match» st.world
      { st with err := r.err, ops := st.ops ++ r.ops, world := r.world }
  else st

/-- The loop of lines 79-122 over the remaining links. `iter k` is the order in which the `k`-th
execution of a `range netCfg.Interfaces` visits the map. The result is `.error` with the error
of line 95 and the state reached when the run returns from inside the loop, and `.ok` with the
final state when the loop ends. -/
def linkLoop (env : Env σ)
    (iter : Nat → List (String × InterfaceConfig) → List (String × InterfaceConfig))
    (netCfg : NetworkConfig) : Nat → List Link → LoopState σ →
    Except (Error × LoopState σ) (LoopState σ)
  | _, [], st => .ok st
  | k, link :: links, st =>
    match resolve env link (iter k netCfg.Interfaces) with
    | .error err => .error (err, st)
    | .ok «match» => linkLoop env iter netCfg (k + 1) links (applyMatch env link «match» st)

/-- Lines 124-133: the DHCP client is run once on the collected links; its error is only logged. -/
def runDHCP (env : Env σ) (dhcpLinks : List String) (w : σ) : Outcome σ :=
  if dhcpLinks.length > 0 then
    let dhcpcdArgs := ["-MA4", "-e", "force_hostname=true"] ++ dhcpLinks
    let r := env.exec (.command "dhcpcd" dhcpcdArgs) w
    ⟨none, [.command "dhcpcd" dhcpcdArgs], r.2⟩
  else ⟨none, [], w⟩

/-- The function `ApplyNetworkConfigs`. The range of `createInterfaces` is execution `0` of
`iter`, the range for the `i`-th link of the inventory is execution `i + 1`. -/
def ApplyNetworkConfigs (env : Env σ)
    (iter : Nat → List (String × InterfaceConfig) → List (String × InterfaceConfig))
    (netCfg : NetworkConfig) (w : σ) : Outcome σ :=
  let script := runScript env netCfg w
  let bridges := createInterfaces env (iter 0 netCfg.Interfaces) script.world
  match bridges.err with
  | some err => ⟨some err, script.ops ++ bridges.ops, bridges.world⟩
  | none =>
    match env.LinkList bridges.world with
    | .error err => ⟨some err, script.ops ++ bridges.ops, bridges.world⟩
    | .ok links =>
      match linkLoop env iter netCfg 1 links ⟨none, [], script.ops ++ bridges.ops, bridges.world⟩ with
      | .error (err, st) => ⟨some err, st.ops, st.world⟩
      | .ok st =>
        let dhcp := runDHCP env st.dhcpLinks st.world
        ⟨st.err, st.ops ++ dhcp.ops, dhcp.world⟩

/-! ## A concrete environment

An instance of `Env` for evaluating the program on concrete inputs: the textual forms of the
hardware addresses, the dotted IPv4 addresses and the `*` patterns that appear in the examples
are read as the Go libraries read them, and the world is the inventory of links, which no
operation changes. -/

/-- The value of a hexadecimal digit, given as a byte. -/
def hexVal (b : Nat) : Option Nat :=
  if 0x30 ≤ b ∧ b ≤ 0x39 then some (b - 0x30)
  else if 0x61 ≤ b ∧ b ≤ 0x66 then some (b - 0x61 + 10)
  else if 0x41 ≤ b ∧ b ≤ 0x46 then some (b - 0x41 + 10)
  else none

/-- Octets written as two hexadecimal digits each and separated by the byte `sep`. -/
def parseOctets (sep : Nat) : List Nat → Option (List Nat)
  | [a, b] =>
    match hexVal a, hexVal b with
    | some h, some l => some [16 * h + l]
    | _, _ => none
  | a :: b :: c :: rest =>
    match hexVal a, hexVal b, parseOctets sep rest with
    | some h, some l, some t => if c = sep then some ((16 * h + l) :: t) else none
    | _, _, _ => none
  | _ => none

/-- Pairs of octets written as four hexadecimal digits each and separated by dots. -/
def parseQuads : List Nat → Option (List Nat)
  | [a, b, c, d] =>
    match hexVal a, hexVal b, hexVal c, hexVal d with
    | some h1, some l1, some h2, some l2 => some [16 * h1 + l1, 16 * h2 + l2]
    | _, _, _, _ => none
  | a :: b :: c :: d :: e :: rest =>
    match hexVal a, hexVal b, hexVal c, hexVal d, parseQuads rest with
    | some h1, some l1, some h2, some l2, some t =>
      if e = 0x2E then some ((16 * h1 + l1) :: (16 * h2 + l2) :: t) else none
    | _, _, _, _, _ => none
  | _ => none

/-- The text of a list of bytes, each byte taken as the character of that code; it is the Go
string itself when the bytes are ASCII. -/
def text (s : List Nat) : String :=
  ⟨s.map Char.ofNat⟩

/-- The function `net.ParseMAC`: 6, 8 or 20 octets, written as two hexadecimal digits each with
colons or with hyphens throughout, or as groups of four hexadecimal digits separated by dots;
every other text is an error. -/
def parseMAC (s : List Nat) : Except Error (List Nat) :=
  let fail : Except Error (List Nat) := .error ("address " ++ text s ++ ": invalid MAC address")
  let sized (hw : Option (List Nat)) : Except Error (List Nat) :=
    match hw with
    | some hw => if hw.length = 6 ∨ hw.length = 8 ∨ hw.length = 20 then .ok hw else fail
    | none => fail
  if s.length < 14 then fail
  else if (s.drop 2).head? = some 0x3A then sized (parseOctets 0x3A s)
  else if (s.drop 2).head? = some 0x2D then sized (parseOctets 0x2D s)
  else if (s.drop 4).head? = some 0x2E then sized (parseQuads s)
  else fail

/-- The fields of a text separated by `sep`. -/
def fields (sep : Char) : List Char → List (List Char)
  | [] => [[]]
  | c :: cs =>
    if c = sep then [] :: fields sep cs
    else
      match fields sep cs with
      | [] => [[c]]
      | f :: fs => (c :: f) :: fs

/-- The value of a non-empty run of decimal digits. -/
def decimal (cs : List Char) : Option Nat :=
  if cs = [] then none
  else cs.foldl (fun acc c => match acc with
    | some n => if c.isDigit then some (10 * n + (c.toNat - '0'.toNat)) else none
    | none => none) (some 0)

/-- A decimal field of an IPv4 address: digits without a leading zero, of value at most 255. -/
def octet (cs : List Char) : Option Nat :=
  match cs with
  | '0' :: _ :: _ => none
  | _ =>
    match decimal cs with
    | some n => if n ≤ 255 then some n else none
    | none => none

/-- Four decimal fields separated by dots. -/
def parseIPv4 (cs : List Char) : Option (List Nat) :=
  match (fields '.' cs).map octet with
  | [some a, some b, some c, some d] => some [a, b, c, d]
  | _ => none

/-- The function `net.ParseIP` on dotted IPv4 texts, for which it returns the 16-byte form of the
address. The library also reads IPv6 texts; they are not modelled and are rejected here. -/
def parseIP (s : String) : Option (List Nat) :=
  (parseIPv4 s.data).map (fun v4 => [0, 0, 0, 0, 0, 0, 0, 0, 0, 0, 255, 255] ++ v4)

/-- The function `net.CIDRMask(ones, 32)`. -/
def cidrMask (ones : Nat) : List Nat :=
  (List.range 4).map (fun i => 256 - 2 ^ (8 - min 8 (ones - 8 * i)))

/-- The function `netlink.ParseAddr` on IPv4 texts: `a.b.c.d/n`, optionally followed by a space
and a label. The library also reads IPv6 texts; they are not modelled and are rejected here. -/
def parseAddr (s : String) : Except Error Addr :=
  let parts := fields ' ' s.data
  let cidr := parts.headD []
  let label : String := if parts.length > 1 then ⟨(parts.tail).headD []⟩ else ""
  match fields '/' cidr with
  | [ip, ones] =>
    match parseIPv4 ip, decimal ones with
    | some v4, some n =>
      if n ≤ 32 then
        .ok { IP := [0, 0, 0, 0, 0, 0, 0, 0, 0, 0, 255, 255] ++ v4, Mask := cidrMask n, Label := label }
      else .error ("invalid CIDR address: " ++ String.mk cidr)
    | _, _ => .error ("invalid CIDR address: " ++ String.mk cidr)
  | _ => .error ("invalid CIDR address: " ++ String.mk cidr)

/-- The `*` wildcard of `glob.Glob` on characters: `*` stands for any run of characters and
every other character for itself. -/
def globChars : List Char → List Char → Bool
  | [], subj => subj.isEmpty
  | c :: pattern, subj =>
    if c = '*' then subj.tails.any (globChars pattern)
    else
      match subj with
      | [] => false
      | d :: rest => decide (c = d) && globChars pattern rest

/-- The function `glob.Glob(pattern, subj)` of the concrete environment, after the library
`github.com/ryanuber/go-glob` that line 14 imports and whose source is not among the sources of
the repository: its only wildcard is `*`, and `?` and brackets have no special meaning. -/
def Glob (pattern subj : String) : Bool :=
  globChars pattern.data subj.data

/-- The concrete environment: the world is the link inventory, `fails op` is the error with which
the request `op` fails (`none` when it succeeds), and requests leave the inventory as it is. -/
def testEnv (fails : Op → Option Error) : Env (List Link) where
  ParseMAC := parseMAC
  ParseAddr := parseAddr
  ParseIP := parseIP
  Glob := Glob
  IsNotExist := fun err => err.isSome
  LinkList := fun links => .ok links
  exec := fun op links => (fails op, links)

/-- Every request succeeds. -/
def allSucceed : Op → Option Error := fun _ => none

/-- The map is visited in the order in which its entries are listed. -/
def listed : Nat → List (String × InterfaceConfig) → List (String × InterfaceConfig) :=
  fun _ entries => entries

/-! ## The notions the statements use -/

/-- The entry as the scan sees it (lines 84-86): the pair of the map with the key substituted
for an empty `Match`. -/
def seen (kv : String × InterfaceConfig) : InterfaceConfig :=
  withKey kv.1 kv.2

/-- The entry is of MAC form (line 92) and its remainder parses (line 93) to the hardware address
of the link (line 97). -/
def macMatches (env : Env σ) (link : Link) (e : InterfaceConfig) : Bool :=
  isMacForm e.Match &&
    match env.ParseMAC ((bytes e.Match).drop 4) with
    | .ok haAddr => decide (haAddr = link.HardwareAddr)
    | .error _ => false

/-- The remainder of the entry parses as a hardware address whenever the entry is of MAC form. -/
def macParses (env : Env σ) (e : InterfaceConfig) : Bool :=
  !isMacForm e.Match ||
    match env.ParseMAC ((bytes e.Match).drop 4) with
    | .ok _ => true
    | .error _ => false

/-- The entry is not skipped (lines 88-90) and its match string is the name of the link
(line 109). -/
def exactMatches (link : Link) (e : InterfaceConfig) : Bool :=
  decide (e.Match ≠ "") && decide (e.Match = link.Name)

/-- The entry is not skipped (lines 88-90) and its match string glob-matches the name of the link
(line 105). -/
def globMatches (env : Env σ) (link : Link) (e : InterfaceConfig) : Bool :=
  decide (e.Match ≠ "") && «matches» env link.Name e.Match

/-- The entry matches the link by MAC, by exact name or by glob. -/
def matchesLink (env : Env σ) (link : Link) (e : InterfaceConfig) : Bool :=
  macMatches env link e || exactMatches link e || globMatches env link e

/-- The world after the requests `ops` have been made in order from `w`. -/
def worldAfter (env : Env σ) (ops : List Op) (w : σ) : σ :=
  ops.foldl (fun w op => (env.exec op w).2) w

/-- The environment in which `netlink.AddrAdd` reports success and is otherwise as in `env`: the
request leaves the same world and every other request is unchanged. -/
def addSucceeds (env : Env σ) : Env σ :=
  { env with exec := fun op w =>
      match op with
      | .addrAdd _ _ => (none, (env.exec op w).2)
      | _ => env.exec op w }

/-! ## Concrete inputs -/

/-- A link named `eth0` with hardware address `aa:bb:cc:dd:ee:ff`. -/
def eth0 : Link := ⟨"eth0", [0xaa, 0xbb, 0xcc, 0xdd, 0xee, 0xff]⟩

/-- A link named `eth1` with hardware address `aa:bb:cc:dd:ee:00`. -/
def eth1 : Link := ⟨"eth1", [0xaa, 0xbb, 0xcc, 0xdd, 0xee, 0x00]⟩

/-- The entries of the MAC scenario: an entry matching `eth0` by MAC, one by exact name (through
its key) and one by glob. -/
def macScenario : List (String × InterfaceConfig) :=
  [("wired", { Match := "eth*", DHCP := true }),
   ("eth0", { Address := "10.0.0.5/24" }),
   ("byMac", { Match := "mac=aa:bb:cc:dd:ee:ff", MTU := 1400 })]

/-- The MAC scenario in another scan order. -/
def macScenarioScan : List (String × InterfaceConfig) :=
  [("eth0", { Address := "10.0.0.5/24" }),
   ("byMac", { Match := "mac=aa:bb:cc:dd:ee:ff", MTU := 1400 }),
   ("wired", { Match := "eth*", DHCP := true })]

/-- Two entries under different keys with the same exact match string and different settings. -/
def twoExact : List (String × InterfaceConfig) :=
  [("first", { Match := "eth0", MTU := 1400, Address := "10.0.0.5/24" }),
   ("second", { Match := "eth0", MTU := 9000, Address := "10.0.0.6/24" })]

/-- A glob entry and an exact entry for `eth0`. -/
def globAndExact : List (String × InterfaceConfig) :=
  [("wired", { Match := "eth*", DHCP := true }),
   ("eth0", { Address := "10.0.0.5/24" })]

/-- Two glob entries that both match `eth0`. -/
def twoGlobs : List (String × InterfaceConfig) :=
  [("wired", { Match := "eth*", DHCP := true }),
   ("any", { Match := "*", MTU := 1400, Address := "10.0.0.5/24" })]

/-- An entry that sets only an MTU: no address and no link-local addressing. -/
def mtuOnly : InterfaceConfig := { Match := "eth0", MTU := 1400 }

/-- An entry with a static address and an MTU. -/
def staticWithMTU : InterfaceConfig := { Match := "eth0", Address := "10.0.0.5/24", MTU := 1400 }

/-- An entry with a static address, an MTU and a gateway. -/
def staticFull : InterfaceConfig :=
  { Match := "eth0", Address := "10.0.0.5/24", MTU := 1400, Gateway := "10.0.0.1" }

/-- An entry whose only setting is a gateway that is not an IP address. -/
def badGatewayOnly : InterfaceConfig := { Match := "eth0", Gateway := "not-an-ip" }

/-- An entry with a static address and a gateway that is not an IP address. -/
def staticBadGateway : InterfaceConfig :=
  { Match := "eth0", Address := "10.0.0.5/24", Gateway := "not-an-ip" }

/-- An entry whose address is not in CIDR form. -/
def badAddress : InterfaceConfig := { Match := "eth0", Address := "bogus" }

/-- The address `10.0.0.5/24` as `netlink.ParseAddr` returns it. -/
def addr5 : Addr :=
  { IP := [0, 0, 0, 0, 0, 0, 0, 0, 0, 0, 255, 255, 10, 0, 0, 5], Mask := [255, 255, 255, 0] }

/-- The address `10.0.0.6/24` as `netlink.ParseAddr` returns it. -/
def addr6 : Addr :=
  { IP := [0, 0, 0, 0, 0, 0, 0, 0, 0, 0, 255, 255, 10, 0, 0, 6], Mask := [255, 255, 255, 0] }

/-- The requests to set an MTU fail, every other request succeeds. -/
def mtuFails : Op → Option Error
  | .linkSetMTU _ _ => some "operation not permitted"
  | _ => none

/-- The requests to add an address fail, every other request succeeds. -/
def addrAddFails : Op → Option Error
  | .addrAdd _ _ => some "file exists"
  | _ => none

/-- A configuration in which `eth0` has a gateway that is not an IP address and `eth1` is
configured correctly. -/
def firstLinkFails : NetworkConfig :=
  { Interfaces :=
      [("eth0", { Address := "10.0.0.5/24", Gateway := "not-an-ip" }),
       ("eth1", { Address := "10.0.0.6/24" })] }

/-- A configuration with a MAC specifier whose remainder is not a hardware address and an entry
that puts the `eth*` links on DHCP. -/
def unparsableMac : NetworkConfig :=
  { Interfaces :=
      [("wired", { Match := "eth*", DHCP := true }),
       ("byMac", { Match := "mac=zz", MTU := 1400 })] }

/-- A configuration that puts the `eth*` links on DHCP. -/
def dhcpOnly : NetworkConfig :=
  { Interfaces := [("wired", { Match := "eth*", DHCP := true })] }

/-! ## Notions for the statements about the run -/

/-- The entry selected for the link under the scan has `dhcp` true (lines 115-117). -/
def onDHCP (env : Env σ) (link : Link) (scan : List (String × InterfaceConfig)) : Bool :=
  match resolve env link scan with
  | .ok m => decide (m.Match ≠ "") && m.DHCP
  | .error _ => false

/-- The entry selected for the link under the scan has `dhcp` false (lines 115-118), so that
`applyNetConf` is called for the link. -/
def onStatic (env : Env σ) (link : Link) (scan : List (String × InterfaceConfig)) : Bool :=
  match resolve env link scan with
  | .ok m => decide (m.Match ≠ "") && !m.DHCP
  | .error _ => false

/-- The names of the links whose selected entry has `dhcp` true, in the order of the inventory;
the range for the first of the links is execution `k` of `iter`. -/
def dhcpNames (env : Env σ)
    (iter : Nat → List (String × InterfaceConfig) → List (String × InterfaceConfig))
    (netCfg : NetworkConfig) : Nat → List Link → List String
  | _, [] => []
  | k, link :: links =>
    (if onDHCP env link (iter k netCfg.Interfaces) then [link.Name] else []) ++
      dhcpNames env iter netCfg (k + 1) links

/-- No link of the list has a selected entry with `dhcp` false; the range for the first of the
links is execution `k` of `iter`. -/
def noneStatic (env : Env σ)
    (iter : Nat → List (String × InterfaceConfig) → List (String × InterfaceConfig))
    (netCfg : NetworkConfig) : Nat → List Link → Bool
  | _, [] => true
  | k, link :: links =>
    !onStatic env link (iter k netCfg.Interfaces) && noneStatic env iter netCfg (k + 1) links

/-- The state in which `ApplyNetworkConfigs` enters the link loop from world `w`: no error, an
empty DHCP batch, and the requests and the world left by `runScript` and `createInterfaces`. -/
def loopStart (env : Env σ)
    (iter : Nat → List (String × InterfaceConfig) → List (String × InterfaceConfig))
    (netCfg : NetworkConfig) (w : σ) : LoopState σ :=
  ⟨none, [],
    (runScript env netCfg w).ops ++
      (createInterfaces env (iter 0 netCfg.Interfaces) (runScript env netCfg w).world).ops,
    (createInterfaces env (iter 0 netCfg.Interfaces) (runScript env netCfg w).world).world⟩

/-- The entry the resolver returns for the link under the scan; the zero value when resolution
fails. -/
def resolved (env : Env σ) (link : Link) (scan : List (String × InterfaceConfig)) :
    InterfaceConfig :=
  match resolve env link scan with
  | .ok m => m
  | .error _ => {}

/-- The loop body of lines 115-121 run on every link of the list, in order, each with the entry
resolved for it; the range for the first of the links is execution `k` of `iter`. -/
def attemptAll (env : Env σ)
    (iter : Nat → List (String × InterfaceConfig) → List (String × InterfaceConfig))
    (netCfg : NetworkConfig) : Nat → List Link → LoopState σ → LoopState σ
  | _, [], st => st
  | k, link :: links, st =>
    attemptAll env iter netCfg (k + 1) links
      (applyMatch env link (resolved env link (iter k netCfg.Interfaces)) st)

/-- The requests made for a link whose resolved entry is `m`, reached in world `w`: those of
`applyNetConf` when the entry is selected and has `dhcp` false, none otherwise. -/
def requestsFor (env : Env σ) (link : Link) (m : InterfaceConfig) (w : σ) : List Op :=
  if m.Match ≠ "" ∧ m.DHCP = false then (applyNetConf env link m w).ops else []

/-- What a link whose resolved entry is `m` adds to the DHCP batch: its name when the entry is
selected and has `dhcp` true, nothing otherwise. -/
def batchFor (link : Link) (m : InterfaceConfig) : List String :=
  if m.Match ≠ "" ∧ m.DHCP = true then [link.Name] else []

/-- The requests of the MTU step of line 163 for the entry. -/
def mtuRequests (link : Link) (netConf : InterfaceConfig) : List Op :=
  if 0 < netConf.MTU then [.linkSetMTU link netConf.MTU] else []

/-- The request is a run of the DHCP client. -/
def isDhcpcd : Op → Bool
  | .command name _ => decide (name = "dhcpcd")
  | _ => false

/-- The environment with another parser in place of `netlink.ParseAddr`. -/
def withParseAddr (env : Env σ) (parse : String → Except Error Addr) : Env σ :=
  { env with ParseAddr := parse }

/-- The environment in which the DHCP client behaves as `dhcp` says and everything else is as in
`env`. -/
def withDhcpcd (env : Env σ) (dhcp : List String → σ → Option Error × σ) : Env σ :=
  { env with exec := fun op w =>
      match op with
      | .command name args => if name = "dhcpcd" then dhcp args w else env.exec op w
      | _ => env.exec op w }

/-! ## More concrete inputs -/

/-- A link named `wlan0`. -/
def wlan0 : Link := ⟨"wlan0", [0xaa, 0xbb, 0xcc, 0xdd, 0xee, 0x01]⟩

/-- A link named `macvlan0`. -/
def macvlan0 : Link := ⟨"macvlan0", [0xaa, 0xbb, 0xcc, 0xdd, 0xee, 0x02]⟩

/-- The DHCP scenario: the `eth*` links are put on DHCP. -/
def lanOnDHCP : NetworkConfig :=
  { Interfaces := [("lan", { Match := "eth*", DHCP := true })] }

/-- A configuration whose only entry is keyed `macvlan0`, the name of a link. -/
def macvlanByName : NetworkConfig :=
  { Interfaces := [("macvlan0", { Address := "10.0.0.5/24" })] }

/-- An entry with `dhcp` true that also carries static settings. -/
def dhcpWithStatic : InterfaceConfig :=
  { Match := "eth*", DHCP := true, Address := "10.0.0.5/24", IPV4LL := true, MTU := 1400,
    Gateway := "10.0.0.1" }

/-- An entry with `ipv4ll` true and a static address. -/
def linkLocalWithAddress : InterfaceConfig :=
  { Match := "eth0", IPV4LL := true, Address := "10.0.0.5/24" }

/-- The entry of the static scenario: address `10.0.0.5/24`, gateway `10.0.0.1`, no MTU. -/
def staticScenario : InterfaceConfig :=
  { Match := "eth0", Address := "10.0.0.5/24", Gateway := "10.0.0.1" }

/-- The address `10.0.0.1` as `net.ParseIP` returns it. -/
def gateway1 : List Nat := [0, 0, 0, 0, 0, 0, 0, 0, 0, 0, 255, 255, 10, 0, 0, 1]

/-- An entry with no addressing: an MTU and a gateway only. -/
def mtuAndGateway : InterfaceConfig := { Match := "eth0", MTU := 1400, Gateway := "10.0.0.1" }

/-- A configuration in which `eth0` fails on its gateway, `eth1` is configured correctly and
`wlan0` is on DHCP. -/
def lastStaticSucceeds : NetworkConfig :=
  { Interfaces :=
      [("eth0", { Address := "10.0.0.5/24", Gateway := "not-an-ip" }),
       ("eth1", { Address := "10.0.0.6/24" }),
       ("wlan0", { DHCP := true })] }

/-- The MAC scenario as a configuration. -/
def macConfig : NetworkConfig := { Interfaces := macScenario }

/-- The DHCP client fails, every other request succeeds. -/
def dhcpcdFails : Op → Option Error
  | .command _ _ => some "exit status 1"
  | _ => none

/-! ## The match resolver -/

theorem isMacForm_ne_empty {s : String} (h : isMacForm s = true) : s ≠ "" := by
  rintro rfl
  simp [isMacForm, bytes, bytesOf] at h

theorem macStep_ok {env : Env σ} {link : Link} {e : InterfaceConfig} {b : Bool}
    (h : macStep env link e = .ok b) : macMatches env link e = b := by
  unfold macStep at h
  unfold macMatches
  split at h
  · rename_i hf
    split at h
    · cases h
    · rename_i haAddr hp
      simp only [Except.ok.injEq] at h
      simp [hf, hp, h]
  · rename_i hf
    simp only [Except.ok.injEq] at h
    simp [hf, ← h]

theorem macStep_of_parses {env : Env σ} (link : Link) {e : InterfaceConfig}
    (h : macParses env e = true) : macStep env link e = .ok (macMatches env link e) := by
  unfold macParses at h
  unfold macStep macMatches
  by_cases hf : isMacForm e.Match = true
  · simp only [hf, Bool.not_true, Bool.false_or] at h
    simp only [hf, if_true, Bool.true_and]
    split <;> simp_all
  · simp [hf]

theorem macMatches_ne_empty {env : Env σ} {link : Link} {e : InterfaceConfig}
    (h : macMatches env link e = true) : e.Match ≠ "" := by
  unfold macMatches at h
  simp only [Bool.and_eq_true] at h
  exact isMacForm_ne_empty h.1

theorem nameStep_cases (env : Env σ) (link : Link) (e m : InterfaceConfig) :
    (nameStep env link e m = e ∧
        (e.Match = link.Name ∨ (m.Match = "" ∧ «matches» env link.Name e.Match = true))) ∨
      (nameStep env link e m = m ∧ e.Match ≠ link.Name ∧
        ¬ (m.Match = "" ∧ «matches» env link.Name e.Match = true)) := by
  unfold nameStep
  by_cases hx : e.Match = link.Name
  · simp [hx]
  · by_cases hg : m.Match = "" ∧ «matches» env link.Name e.Match = true
    · simp [hx, hg]
    · right
      refine ⟨?_, hx, hg⟩
      simp [hx, hg]

theorem scanEntries_skip {env : Env σ} {link : Link} {kv : String × InterfaceConfig}
    (rest : List (String × InterfaceConfig)) (m : InterfaceConfig) (h : (seen kv).Match = "") :
    scanEntries env link (kv :: rest) m = scanEntries env link rest m := by
  obtain ⟨key, netConf⟩ := kv
  simp only [seen] at h
  simp [scanEntries, h]

theorem scanEntries_step {env : Env σ} {link : Link} {kv : String × InterfaceConfig}
    (rest : List (String × InterfaceConfig)) (m : InterfaceConfig) (h : (seen kv).Match ≠ "") :
    scanEntries env link (kv :: rest) m =
      match macStep env link (seen kv) with
      | .error err => .error err
      | .ok true => .ok (seen kv)
      | .ok false => scanEntries env link rest (nameStep env link (seen kv) m) := by
  obtain ⟨key, netConf⟩ := kv
  simp only [seen] at h
  simp [scanEntries, h, seen]

/-- A scan that does not fail ends with the initial `match` or with an entry of the scan that is
not skipped and matches the link. -/
theorem scanEntries_sound {env : Env σ} {link : Link} :
    ∀ (scan : List (String × InterfaceConfig)) (m0 m : InterfaceConfig),
      scanEntries env link scan m0 = .ok m →
      m = m0 ∨ ∃ kv ∈ scan, m = seen kv ∧ m.Match ≠ "" ∧ matchesLink env link m = true := by
  intro scan
  induction scan with
  | nil =>
    intro m0 m h
    simp only [scanEntries, Except.ok.injEq] at h
    exact Or.inl h.symm
  | cons kv rest ih =>
    intro m0 m h
    by_cases hk : (seen kv).Match = ""
    · rw [scanEntries_skip rest m0 hk] at h
      rcases ih m0 m h with h1 | ⟨kv1, hmem, h1⟩
      · exact Or.inl h1
      · exact Or.inr ⟨kv1, List.mem_cons_of_mem _ hmem, h1⟩
    · rw [scanEntries_step rest m0 hk] at h
      cases hs : macStep env link (seen kv) with
      | error err => rw [hs] at h; cases h
      | ok b =>
        have hb := macStep_ok hs
        rw [hs] at h
        cases b with
        | true =>
          simp only [Except.ok.injEq] at h
          subst h
          exact Or.inr ⟨kv, List.mem_cons_self _ _, rfl, hk, by simp [matchesLink, hb]⟩
        | false =>
          simp only at h
          rcases ih _ m h with h1 | ⟨kv1, hmem, h1⟩
          · rcases nameStep_cases env link (seen kv) m0 with ⟨hn, hc⟩ | ⟨hn, _, _⟩
            · right
              refine ⟨kv, List.mem_cons_self _ _, by rw [h1, hn], by rw [h1, hn]; exact hk, ?_⟩
              rw [h1, hn]
              rcases hc with hx | ⟨_, hg⟩
              · have : exactMatches link (seen kv) = true := by
                  simp only [exactMatches, Bool.and_eq_true, decide_eq_true_eq]
                  exact ⟨hk, hx⟩
                simp [matchesLink, this]
              · have : globMatches env link (seen kv) = true := by
                  simp only [globMatches, Bool.and_eq_true, decide_eq_true_eq]
                  exact ⟨hk, hg⟩
                simp [matchesLink, this]
            · exact Or.inl (by rw [h1, hn])
          · exact Or.inr ⟨kv1, List.mem_cons_of_mem _ hmem, h1⟩

/-- A scan that does not fail ends with a non-empty `Match` as soon as it starts with one or an
entry of the scan matches the link. -/
theorem scanEntries_complete {env : Env σ} {link : Link} :
    ∀ (scan : List (String × InterfaceConfig)) (m0 m : InterfaceConfig),
      scanEntries env link scan m0 = .ok m →
      (m0.Match ≠ "" ∨ ∃ kv ∈ scan, matchesLink env link (seen kv) = true ∧ (seen kv).Match ≠ "") →
      m.Match ≠ "" := by
  intro scan
  induction scan with
  | nil =>
    intro m0 m h hex
    simp only [scanEntries, Except.ok.injEq] at h
    subst h
    rcases hex with h0 | ⟨kv, hmem, _⟩
    · exact h0
    · cases hmem
  | cons kv rest ih =>
    intro m0 m h hex
    by_cases hk : (seen kv).Match = ""
    · rw [scanEntries_skip rest m0 hk] at h
      apply ih m0 m h
      rcases hex with h0 | ⟨kv1, hmem, hm, hne⟩
      · exact Or.inl h0
      · rcases List.mem_cons.mp hmem with rfl | hmem
        · exact absurd hk hne
        · exact Or.inr ⟨kv1, hmem, hm, hne⟩
    · rw [scanEntries_step rest m0 hk] at h
      cases hs : macStep env link (seen kv) with
      | error err => rw [hs] at h; cases h
      | ok b =>
        have hb := macStep_ok hs
        rw [hs] at h
        cases b with
        | true =>
          simp only [Except.ok.injEq] at h
          subst h
          exact hk
        | false =>
          simp only at h
          apply ih _ m h
          rcases nameStep_cases env link (seen kv) m0 with ⟨hn, _⟩ | ⟨hn, hnx, hng⟩
          · left; rw [hn]; exact hk
          · rcases hex with h0 | ⟨kv1, hmem, hm, hne⟩
            · left; rw [hn]; exact h0
            · rcases List.mem_cons.mp hmem with rfl | hmem
              · by_cases h0 : m0.Match = ""
                · exfalso
                  simp only [matchesLink, hb, exactMatches, globMatches, Bool.false_or,
                    Bool.or_eq_true, Bool.and_eq_true, decide_eq_true_eq] at hm
                  rcases hm with ⟨_, hx⟩ | ⟨_, hg⟩
                  · exact hnx hx
                  · exact hng ⟨h0, hg⟩
                · left; rw [hn]; exact h0
              · exact Or.inr ⟨kv1, hmem, hm, hne⟩

/-- When no entry of the scan matches by MAC, a scan that does not fail and that starts from a
`match` named like the link, or that holds an entry matching the name exactly, ends with a
`match` named like the link. -/
theorem scanEntries_exact {env : Env σ} {link : Link} :
    ∀ (scan : List (String × InterfaceConfig)) (m0 m : InterfaceConfig),
      scanEntries env link scan m0 = .ok m →
      (∀ kv ∈ scan, macMatches env link (seen kv) = false) →
      ((m0.Match ≠ "" ∧ m0.Match = link.Name) ∨ ∃ kv ∈ scan, exactMatches link (seen kv) = true) →
      m.Match ≠ "" ∧ m.Match = link.Name := by
  intro scan
  induction scan with
  | nil =>
    intro m0 m h _ hex
    simp only [scanEntries, Except.ok.injEq] at h
    subst h
    rcases hex with h0 | ⟨kv, hmem, _⟩
    · exact h0
    · cases hmem
  | cons kv rest ih =>
    intro m0 m h hno hex
    have hno1 : ∀ kv1 ∈ rest, macMatches env link (seen kv1) = false :=
      fun kv1 hmem => hno kv1 (List.mem_cons_of_mem _ hmem)
    by_cases hk : (seen kv).Match = ""
    · rw [scanEntries_skip rest m0 hk] at h
      apply ih m0 m h hno1
      rcases hex with h0 | ⟨kv1, hmem, hm⟩
      · exact Or.inl h0
      · rcases List.mem_cons.mp hmem with rfl | hmem
        · simp [exactMatches, hk] at hm
        · exact Or.inr ⟨kv1, hmem, hm⟩
    · rw [scanEntries_step rest m0 hk] at h
      cases hs : macStep env link (seen kv) with
      | error err => rw [hs] at h; cases h
      | ok b =>
        have hb := macStep_ok hs
        rw [hno kv (List.mem_cons_self _ _)] at hb
        subst hb
        rw [hs] at h
        simp only at h
        apply ih _ m h hno1
        rcases nameStep_cases env link (seen kv) m0 with ⟨hn, hc⟩ | ⟨hn, hnx, hng⟩
        · rcases hex with h0 | ⟨kv1, hmem, hm⟩
          · rcases hc with hx | ⟨he, _⟩
            · left; rw [hn]; exact ⟨hk, hx⟩
            · exact absurd he h0.1
          · rcases hc with hx | ⟨he, _⟩
            · left; rw [hn]; exact ⟨hk, hx⟩
            · rcases List.mem_cons.mp hmem with rfl | hmem
              · simp only [exactMatches, Bool.and_eq_true, decide_eq_true_eq] at hm
                left; rw [hn]; exact hm
              · exact Or.inr ⟨kv1, hmem, hm⟩
        · rcases hex with h0 | ⟨kv1, hmem, hm⟩
          · left; rw [hn]; exact h0
          · rcases List.mem_cons.mp hmem with rfl | hmem
            · simp only [exactMatches, Bool.and_eq_true, decide_eq_true_eq] at hm
              exact absurd hm.2 hnx
            · exact Or.inr ⟨kv1, hmem, hm⟩

/-- When every MAC-form entry of the scan parses and one of them matches the link by MAC, the scan
ends at an entry that matches by MAC, whatever `match` it starts from. -/
theorem scanEntries_mac {env : Env σ} {link : Link} :
    ∀ (scan : List (String × InterfaceConfig)) (m0 : InterfaceConfig),
      (∀ kv ∈ scan, macParses env (seen kv) = true) →
      (∃ kv ∈ scan, macMatches env link (seen kv) = true) →
      ∃ kv ∈ scan, scanEntries env link scan m0 = .ok (seen kv) ∧
        macMatches env link (seen kv) = true := by
  intro scan
  induction scan with
  | nil =>
    intro m0 _ hex
    obtain ⟨kv, hmem, _⟩ := hex
    cases hmem
  | cons kv rest ih =>
    intro m0 hp hex
    have hp1 : ∀ kv1 ∈ rest, macParses env (seen kv1) = true :=
      fun kv1 hmem => hp kv1 (List.mem_cons_of_mem _ hmem)
    by_cases hmk : macMatches env link (seen kv) = true
    · have hk := macMatches_ne_empty hmk
      refine ⟨kv, List.mem_cons_self _ _, ?_, hmk⟩
      rw [scanEntries_step rest m0 hk, macStep_of_parses link (hp kv (List.mem_cons_self _ _)), hmk]
    · have hrest : ∃ kv1 ∈ rest, macMatches env link (seen kv1) = true := by
        obtain ⟨kv1, hmem, hm⟩ := hex
        rcases List.mem_cons.mp hmem with rfl | hmem
        · exact absurd hm hmk
        · exact ⟨kv1, hmem, hm⟩
      by_cases hk : (seen kv).Match = ""
      · obtain ⟨kv1, hmem, h1, h2⟩ := ih m0 hp1 hrest
        exact ⟨kv1, List.mem_cons_of_mem _ hmem, by rw [scanEntries_skip rest m0 hk]; exact h1, h2⟩
      · obtain ⟨kv1, hmem, h1, h2⟩ := ih (nameStep env link (seen kv) m0) hp1 hrest
        refine ⟨kv1, List.mem_cons_of_mem _ hmem, ?_, h2⟩
        rw [scanEntries_step rest m0 hk, macStep_of_parses link (hp kv (List.mem_cons_self _ _))]
        simp only [Bool.not_eq_true] at hmk
        rw [hmk]
        exact h1

/-- A scan fails only at a MAC-form entry whose remainder does not parse, with the error of the
parser. -/
theorem scanEntries_error {env : Env σ} {link : Link} :
    ∀ (scan : List (String × InterfaceConfig)) (m0 : InterfaceConfig) (err : Error),
      scanEntries env link scan m0 = .error err →
      ∃ kv ∈ scan, isMacForm (seen kv).Match = true ∧
        env.ParseMAC ((bytes (seen kv).Match).drop 4) = .error err := by
  intro scan
  induction scan with
  | nil =>
    intro m0 err h
    simp [scanEntries] at h
  | cons kv rest ih =>
    intro m0 err h
    by_cases hk : (seen kv).Match = ""
    · rw [scanEntries_skip rest m0 hk] at h
      obtain ⟨kv1, hmem, h1⟩ := ih m0 err h
      exact ⟨kv1, List.mem_cons_of_mem _ hmem, h1⟩
    · rw [scanEntries_step rest m0 hk] at h
      cases hs : macStep env link (seen kv) with
      | error e =>
        rw [hs] at h
        simp only [Except.error.injEq] at h
        subst h
        refine ⟨kv, List.mem_cons_self _ _, ?_⟩
        unfold macStep at hs
        split at hs
        · rename_i hf
          refine ⟨hf, ?_⟩
          split at hs
          · rename_i e1 hp
            simp only [Except.error.injEq] at hs
            rw [hp, hs]
          · cases hs
        · cases hs
      | ok b =>
        rw [hs] at h
        cases b with
        | true => cases h
        | false =>
          simp only at h
          obtain ⟨kv1, hmem, h1⟩ := ih _ err h
          exact ⟨kv1, List.mem_cons_of_mem _ hmem, h1⟩

/-- When every MAC-form entry of the scan parses, the scan does not fail. -/
theorem scanEntries_ok {env : Env σ} (link : Link) (scan : List (String × InterfaceConfig))
    (m0 : InterfaceConfig) (hp : ∀ kv ∈ scan, macParses env (seen kv) = true) :
    ∃ m, scanEntries env link scan m0 = .ok m := by
  cases h : scanEntries env link scan m0 with
  | ok m => exact ⟨m, rfl⟩
  | error err =>
    obtain ⟨kv, hmem, hf, he⟩ := scanEntries_error scan m0 err h
    have := hp kv hmem
    simp [macParses, hf, he] at this

theorem selected_eq_some {m : InterfaceConfig} (h : m.Match ≠ "") : selected m = some m := by
  simp [selected, h]

theorem selected_eq_none {m : InterfaceConfig} (h : m.Match = "") : selected m = none := by
  simp [selected, h]

/-- The MAC tier: under every scan order, when every MAC-form entry parses and some entry matches
by MAC, the scan succeeds with an entry that matches by MAC. -/
theorem mac_tier (env : Env σ) (link : Link)
    (entries scan : List (String × InterfaceConfig)) (hperm : scan.Perm entries)
    (hparse : ∀ kv ∈ entries, macParses env (seen kv) = true)
    (hmac : ∃ kv ∈ entries, macMatches env link (seen kv) = true) :
    ∃ kv ∈ entries, resolve env link scan = .ok (seen kv) ∧
      selected (seen kv) = some (seen kv) ∧ macMatches env link (seen kv) = true := by
  have hp : ∀ kv ∈ scan, macParses env (seen kv) = true :=
    fun kv hmem => hparse kv (hperm.mem_iff.mp hmem)
  have hm : ∃ kv ∈ scan, macMatches env link (seen kv) = true := by
    obtain ⟨kv, hmem, h⟩ := hmac
    exact ⟨kv, hperm.mem_iff.mpr hmem, h⟩
  obtain ⟨kv, hmem, hres, hk⟩ := scanEntries_mac scan {} hp hm
  exact ⟨kv, hperm.mem_iff.mp hmem, hres, selected_eq_some (macMatches_ne_empty hk), hk⟩

/-- The exact tier: under every scan order, when the scan does not fail, no entry matches by MAC
and some entry matches the name exactly, the scan ends with an entry named like the link. -/
theorem exact_tier (env : Env σ) (link : Link)
    (entries scan : List (String × InterfaceConfig)) (hperm : scan.Perm entries)
    (m : InterfaceConfig) (hres : resolve env link scan = .ok m)
    (hnomac : ∀ kv ∈ entries, macMatches env link (seen kv) = false)
    (hexact : ∃ kv ∈ entries, exactMatches link (seen kv) = true) :
    selected m = some m ∧ m.Match = link.Name ∧ ∃ kv ∈ entries, m = seen kv := by
  have hno : ∀ kv ∈ scan, macMatches env link (seen kv) = false :=
    fun kv hmem => hnomac kv (hperm.mem_iff.mp hmem)
  have hex : ∃ kv ∈ scan, exactMatches link (seen kv) = true := by
    obtain ⟨kv, hmem, h⟩ := hexact
    exact ⟨kv, hperm.mem_iff.mpr hmem, h⟩
  obtain ⟨hne, hname⟩ := scanEntries_exact scan {} m hres hno (Or.inr hex)
  refine ⟨selected_eq_some hne, hname, ?_⟩
  rcases scanEntries_sound scan {} m hres with h0 | ⟨kv, hmem, hkv, _⟩
  · rw [h0] at hne
    exact absurd rfl hne
  · exact ⟨kv, hperm.mem_iff.mp hmem, hkv⟩

/-- The encoding of a character has at least one byte. -/
theorem utf8_length_pos (c : Char) : 0 < (utf8 c).length := by
  unfold utf8
  simp only
  split
  · simp
  · split
    · simp
    · split <;> simp

/-- A match string `mac=` followed by a non-empty remainder is of MAC form, and the bytes handed
to the parser are those of the remainder. -/
theorem isMacForm_specifier (addr : String) (hne : addr ≠ "") :
    isMacForm ("mac=" ++ addr) = true ∧ (bytes ("mac=" ++ addr)).drop 4 = bytes addr := by
  obtain ⟨cs⟩ := addr
  have hcs : cs ≠ [] := fun h => hne (by rw [h])
  have hbytes : bytes ("mac=" ++ String.mk cs) = 0x6D :: 0x61 :: 0x63 :: 0x3D :: bytesOf cs := by
    have hdata : ("mac=" ++ String.mk cs).data = 'm' :: 'a' :: 'c' :: '=' :: cs := by
      rw [String.data_append]
      rfl
    simp only [bytes, hdata, bytesOf]
    rfl
  have hlen : 0 < (bytesOf cs).length := by
    cases cs with
    | nil => exact absurd rfl hcs
    | cons c cs1 =>
      have := utf8_length_pos c
      simp only [bytesOf, List.length_append]
      omega
  constructor
  · simp only [isMacForm, Bool.and_eq_true, decide_eq_true_eq, hbytes]
    constructor
    · simp only [List.length_cons]
      omega
    · show ToLower [0x6D, 0x61, 0x63] = bytes "mac"
      decide
  · rw [hbytes]
    rfl

/-- An entry whose match string is `mac=<addr>`, with `<addr>` a non-empty text that parses to
the hardware address of the link, matches the link by MAC. -/
theorem macMatches_of_specifier (env : Env σ) (link : Link) (e : InterfaceConfig) (addr : String)
    (hm : e.Match = "mac=" ++ addr) (hne : addr ≠ "")
    (hp : env.ParseMAC (bytes addr) = .ok link.HardwareAddr) : macMatches env link e = true := by
  obtain ⟨hf, hd⟩ := isMacForm_specifier addr hne
  simp [macMatches, hm, hf, hd, hp]

/-- The test of line 92 counts bytes: `macé` has four characters and five bytes, so it is of MAC
form, the parser is handed the last byte of `é`, and the scan fails at this entry when it comes
before the entry that matches by MAC. -/
theorem isMacForm_counts_bytes :
    isMacForm "macé" = true ∧ (bytes "macé").drop 4 = [0xA9] ∧
      macParses (testEnv allSucceed) { Match := "macé" } = false ∧
      resolve (testEnv allSucceed) eth0
          [("x", { Match := "macé" }), ("byMac", { Match := "mac=aa:bb:cc:dd:ee:ff" })] =
        .error ("address " ++ text [0xA9] ++ ": invalid MAC address") := by
  decide

/-- C1. MAC precedence: when every MAC-form entry of the configuration parses and some entry
matches the link by MAC, then under every scan order of the entries the resolver succeeds and
the entry it selects is an entry of the configuration that matches the link by MAC, whatever
other entries match the name of the link exactly or by glob. -/
theorem mac_match_takes_precedence (env : Env σ) (link : Link)
    (entries scan : List (String × InterfaceConfig)) (hperm : scan.Perm entries)
    (hparse : ∀ kv ∈ entries, macParses env (seen kv) = true)
    (hmac : ∃ kv ∈ entries, macMatches env link (seen kv) = true) :
    ∃ kv ∈ entries, resolve env link scan = .ok (seen kv) ∧
      selected (seen kv) = some (seen kv) ∧ macMatches env link (seen kv) = true :=
  mac_tier env link entries scan hperm hparse hmac

theorem mac_match_takes_precedence_witness :
    macScenarioScan.Perm macScenario ∧
    (∀ kv ∈ macScenario, macParses (testEnv allSucceed) (seen kv) = true) ∧
    (∃ kv ∈ macScenario, macMatches (testEnv allSucceed) eth0 (seen kv) = true) ∧
    ∃ kv ∈ macScenario, resolve (testEnv allSucceed) eth0 macScenarioScan = .ok (seen kv) ∧
      selected (seen kv) = some (seen kv) ∧ macMatches (testEnv allSucceed) eth0 (seen kv) = true :=
  ⟨by decide, by decide, by decide,
    mac_match_takes_precedence (testEnv allSucceed) eth0 macScenario macScenarioScan
      (by decide) (by decide) (by decide)⟩

/-- C2. Exact over glob: under every scan order of the entries, when resolution does not fail, no
entry matches the link by MAC and some entry the scan does not skip has the name of the link as
its effective match string, the resolver selects an entry of the configuration whose effective
match string is the name of the link, wherever the glob-matching entries come in the scan. -/
theorem exact_match_over_glob (env : Env σ) (link : Link)
    (entries scan : List (String × InterfaceConfig)) (hperm : scan.Perm entries)
    (m : InterfaceConfig) (hres : resolve env link scan = .ok m)
    (hnomac : ∀ kv ∈ entries, macMatches env link (seen kv) = false)
    (hexact : ∃ kv ∈ entries, exactMatches link (seen kv) = true) :
    selected m = some m ∧ m.Match = link.Name ∧ ∃ kv ∈ entries, m = seen kv :=
  exact_tier env link entries scan hperm m hres hnomac hexact

theorem exact_match_over_glob_witness :
    globAndExact.Perm globAndExact ∧
    resolve (testEnv allSucceed) eth0 globAndExact = .ok { Match := "eth0", Address := "10.0.0.5/24" } ∧
    (∀ kv ∈ globAndExact, macMatches (testEnv allSucceed) eth0 (seen kv) = false) ∧
    (∃ kv ∈ globAndExact, exactMatches eth0 (seen kv) = true) ∧
    (selected ({ Match := "eth0", Address := "10.0.0.5/24" } : InterfaceConfig) =
        some { Match := "eth0", Address := "10.0.0.5/24" } ∧
      ({ Match := "eth0", Address := "10.0.0.5/24" } : InterfaceConfig).Match = eth0.Name ∧
      ∃ kv ∈ globAndExact, { Match := "eth0", Address := "10.0.0.5/24" } = seen kv) :=
  ⟨by decide, by decide, by decide, by decide,
    exact_match_over_glob (testEnv allSucceed) eth0 globAndExact globAndExact (by decide)
      { Match := "eth0", Address := "10.0.0.5/24" } (by decide) (by decide) (by decide)⟩

/-- C3. Selection is sound and complete: when resolution does not fail, the resolver selects an
entry if and only if some entry with a non-empty effective match string matches the link by MAC,
by exact name or by glob; the selected entry is one of those entries, so its effective match
string is not empty; and for a link with no selected entry the loop body requests no operation,
leaves the DHCP batch as it is and changes nothing else. -/
theorem selection_sound_complete (env : Env σ) (link : Link)
    (scan : List (String × InterfaceConfig)) (m : InterfaceConfig)
    (hres : resolve env link scan = .ok m) :
    ((selected m).isSome = true ↔
        ∃ kv ∈ scan, (seen kv).Match ≠ "" ∧ matchesLink env link (seen kv) = true) ∧
      (∀ e, selected m = some e →
        e.Match ≠ "" ∧ ∃ kv ∈ scan, e = seen kv ∧ matchesLink env link e = true) ∧
      (selected m = none → ∀ st : LoopState σ, applyMatch env link m st = st) := by
  have hsound := scanEntries_sound scan {} m hres
  refine ⟨⟨?_, ?_⟩, ?_, ?_⟩
  · intro hs
    have hne : m.Match ≠ "" := by
      intro h0
      rw [selected_eq_none h0] at hs
      cases hs
    rcases hsound with h0 | ⟨kv, hmem, hkv, _, hm⟩
    · rw [h0] at hne
      exact absurd rfl hne
    · exact ⟨kv, hmem, hkv ▸ hne, hkv ▸ hm⟩
  · rintro ⟨kv, hmem, hne, hm⟩
    have := scanEntries_complete scan {} m hres (Or.inr ⟨kv, hmem, hm, hne⟩)
    rw [selected_eq_some this]
    rfl
  · intro e he
    have hne : m.Match ≠ "" := by
      intro h0
      rw [selected_eq_none h0] at he
      cases he
    rw [selected_eq_some hne] at he
    cases he
    refine ⟨hne, ?_⟩
    rcases hsound with h0 | ⟨kv, hmem, hkv, _, hm⟩
    · rw [h0] at hne
      exact absurd rfl hne
    · exact ⟨kv, hmem, hkv, hm⟩
  · intro hnone st
    have h0 : m.Match = "" := by
      by_contra hne
      rw [selected_eq_some hne] at hnone
      cases hnone
    simp [applyMatch, h0]

theorem selection_sound_complete_witness :
    resolve (testEnv allSucceed) eth1 macScenario = .ok { Match := "eth*", DHCP := true } ∧
    (((selected ({ Match := "eth*", DHCP := true } : InterfaceConfig)).isSome = true ↔
        ∃ kv ∈ macScenario, (seen kv).Match ≠ "" ∧
          matchesLink (testEnv allSucceed) eth1 (seen kv) = true) ∧
      (∀ e, selected ({ Match := "eth*", DHCP := true } : InterfaceConfig) = some e →
        e.Match ≠ "" ∧ ∃ kv ∈ macScenario, e = seen kv ∧
          matchesLink (testEnv allSucceed) eth1 e = true) ∧
      (selected ({ Match := "eth*", DHCP := true } : InterfaceConfig) = none →
        ∀ st : LoopState (List Link),
          applyMatch (testEnv allSucceed) eth1 { Match := "eth*", DHCP := true } st = st)) :=
  ⟨by decide, selection_sound_complete (testEnv allSucceed) eth1 macScenario
    { Match := "eth*", DHCP := true } (by decide)⟩

/-- C10, as stated, fails: two entries under different keys with the same exact match string are
selected in turn by the two scan orders, although every MAC-form entry parses and entries match
the link by exact name. -/
theorem scan_order_exact_tie_counterexample :
    twoExact.reverse.Perm twoExact ∧
      (∀ kv ∈ twoExact, macParses (testEnv allSucceed) (seen kv) = true) ∧
      resolve (testEnv allSucceed) eth0 twoExact =
        .ok { Match := "eth0", MTU := 9000, Address := "10.0.0.6/24" } ∧
      resolve (testEnv allSucceed) eth0 twoExact.reverse =
        .ok { Match := "eth0", MTU := 1400, Address := "10.0.0.5/24" } ∧
      selected ({ Match := "eth0", MTU := 9000, Address := "10.0.0.6/24" } : InterfaceConfig) ≠
        selected { Match := "eth0", MTU := 1400, Address := "10.0.0.5/24" } ∧
      ¬ ∀ kv ∈ twoExact, macMatches (testEnv allSucceed) eth0 (seen kv) = false ∧
          exactMatches eth0 (seen kv) = false := by
  decide

/-- C10, as amended. Scan order matters only for ties within the winning tier: when every
MAC-form entry parses and two scan orders of the same entries select different entries for the
link, the two selected entries are distinct entries of the configuration that tie: both match the
link by MAC, or no entry matches by MAC and both match the name exactly, or no entry matches by
MAC or by exact name and both glob-match the name. In every other case all scan orders select
the same entry. -/
theorem scan_order_matters_only_for_ties (env : Env σ) (link : Link)
    (entries s1 s2 : List (String × InterfaceConfig))
    (h1 : s1.Perm entries) (h2 : s2.Perm entries)
    (hparse : ∀ kv ∈ entries, macParses env (seen kv) = true)
    (m1 m2 : InterfaceConfig)
    (r1 : resolve env link s1 = .ok m1) (r2 : resolve env link s2 = .ok m2)
    (hne : selected m1 ≠ selected m2) :
    m1 ≠ m2 ∧ (∃ kv ∈ entries, m1 = seen kv) ∧ (∃ kv ∈ entries, m2 = seen kv) ∧
      ((macMatches env link m1 = true ∧ macMatches env link m2 = true) ∨
        ((∀ kv ∈ entries, macMatches env link (seen kv) = false) ∧
          exactMatches link m1 = true ∧ exactMatches link m2 = true) ∨
        ((∀ kv ∈ entries, macMatches env link (seen kv) = false) ∧
          (∀ kv ∈ entries, exactMatches link (seen kv) = false) ∧
          globMatches env link m1 = true ∧ globMatches env link m2 = true)) := by
  have hm12 : m1 ≠ m2 := fun h => hne (by rw [h])
  -- each result is the zero value or an entry that matches the link
  have key : ∀ (s : List (String × InterfaceConfig)) (m : InterfaceConfig), s.Perm entries →
      resolve env link s = .ok m →
      m = {} ∨ (m.Match ≠ "" ∧ (∃ kv ∈ entries, m = seen kv) ∧ matchesLink env link m = true) := by
    intro s m hs hr
    rcases scanEntries_sound s {} m hr with h0 | ⟨kv, hmem, hkv, hk, hm⟩
    · exact Or.inl h0
    · exact Or.inr ⟨hk, ⟨kv, hs.mem_iff.mp hmem, hkv⟩, hm⟩
  by_cases hmac : ∃ kv ∈ entries, macMatches env link (seen kv) = true
  · -- the MAC tier
    obtain ⟨kv1, hk1, e1, _, g1⟩ := mac_tier env link entries s1 h1 hparse hmac
    obtain ⟨kv2, hk2, e2, _, g2⟩ := mac_tier env link entries s2 h2 hparse hmac
    rw [r1] at e1
    rw [r2] at e2
    simp only [Except.ok.injEq] at e1 e2
    subst e1 e2
    exact ⟨hm12, ⟨kv1, hk1, rfl⟩, ⟨kv2, hk2, rfl⟩, Or.inl ⟨g1, g2⟩⟩
  · have hnomac : ∀ kv ∈ entries, macMatches env link (seen kv) = false := by
      intro kv hmem
      by_contra h
      exact hmac ⟨kv, hmem, by simpa using h⟩
    by_cases hex : ∃ kv ∈ entries, exactMatches link (seen kv) = true
    · -- the exact tier
      obtain ⟨_, n1, k1⟩ := exact_tier env link entries s1 h1 m1 r1 hnomac hex
      obtain ⟨_, n2, k2⟩ := exact_tier env link entries s2 h2 m2 r2 hnomac hex
      have hname : link.Name ≠ "" := by
        obtain ⟨kv, _, h⟩ := hex
        simp only [exactMatches, Bool.and_eq_true, decide_eq_true_eq] at h
        exact h.2 ▸ h.1
      refine ⟨hm12, k1, k2, Or.inr (Or.inl ⟨hnomac, ?_, ?_⟩)⟩
      · simp only [exactMatches, Bool.and_eq_true, decide_eq_true_eq]
        exact ⟨n1 ▸ hname, n1⟩
      · simp only [exactMatches, Bool.and_eq_true, decide_eq_true_eq]
        exact ⟨n2 ▸ hname, n2⟩
    · -- the glob tier
      have hnoex : ∀ kv ∈ entries, exactMatches link (seen kv) = false := by
        intro kv hmem
        by_contra h
        exact hex ⟨kv, hmem, by simpa using h⟩
      have glob_of : ∀ m : InterfaceConfig, (∃ kv ∈ entries, m = seen kv) →
          matchesLink env link m = true → globMatches env link m = true := by
        rintro m ⟨kv, hmem, rfl⟩ hm
        simpa [matchesLink, hnomac kv hmem, hnoex kv hmem] using hm
      have zero_of : ∀ (s : List (String × InterfaceConfig)) (m : InterfaceConfig),
          s.Perm entries → resolve env link s = .ok m →
          (∃ kv ∈ entries, matchesLink env link (seen kv) = true ∧ (seen kv).Match ≠ "") →
          m ≠ {} := by
        rintro s m hs hr ⟨kv, hmem, hm, hk⟩ h0
        have := scanEntries_complete s {} m hr (Or.inr ⟨kv, hs.mem_iff.mpr hmem, hm, hk⟩)
        rw [h0] at this
        exact this rfl
      rcases key s1 m1 h1 r1 with z1 | ⟨ne1, k1, g1⟩ <;>
        rcases key s2 m2 h2 r2 with z2 | ⟨ne2, k2, g2⟩
      · exact absurd (z1.trans z2.symm) hm12
      · obtain ⟨kv, hmem, hkv⟩ := k2
        exact absurd z1 (zero_of s1 m1 h1 r1 ⟨kv, hmem, hkv ▸ g2, hkv ▸ ne2⟩)
      · obtain ⟨kv, hmem, hkv⟩ := k1
        exact absurd z2 (zero_of s2 m2 h2 r2 ⟨kv, hmem, hkv ▸ g1, hkv ▸ ne1⟩)
      · exact ⟨hm12, k1, k2, Or.inr (Or.inr ⟨hnomac, hnoex, glob_of m1 k1 g1, glob_of m2 k2 g2⟩)⟩

theorem scan_order_matters_only_for_ties_witness :
    twoGlobs.Perm twoGlobs ∧ twoGlobs.reverse.Perm twoGlobs ∧
    (∀ kv ∈ twoGlobs, macParses (testEnv allSucceed) (seen kv) = true) ∧
    resolve (testEnv allSucceed) eth0 twoGlobs = .ok { Match := "eth*", DHCP := true } ∧
    resolve (testEnv allSucceed) eth0 twoGlobs.reverse =
      .ok { Match := "*", MTU := 1400, Address := "10.0.0.5/24" } ∧
    selected ({ Match := "eth*", DHCP := true } : InterfaceConfig) ≠
      selected { Match := "*", MTU := 1400, Address := "10.0.0.5/24" } ∧
    (({ Match := "eth*", DHCP := true } : InterfaceConfig) ≠
        { Match := "*", MTU := 1400, Address := "10.0.0.5/24" } ∧
      (∃ kv ∈ twoGlobs, { Match := "eth*", DHCP := true } = seen kv) ∧
      (∃ kv ∈ twoGlobs, { Match := "*", MTU := 1400, Address := "10.0.0.5/24" } = seen kv) ∧
      ((macMatches (testEnv allSucceed) eth0 { Match := "eth*", DHCP := true } = true ∧
          macMatches (testEnv allSucceed) eth0
            { Match := "*", MTU := 1400, Address := "10.0.0.5/24" } = true) ∨
        ((∀ kv ∈ twoGlobs, macMatches (testEnv allSucceed) eth0 (seen kv) = false) ∧
          exactMatches eth0 { Match := "eth*", DHCP := true } = true ∧
          exactMatches eth0 { Match := "*", MTU := 1400, Address := "10.0.0.5/24" } = true) ∨
        ((∀ kv ∈ twoGlobs, macMatches (testEnv allSucceed) eth0 (seen kv) = false) ∧
          (∀ kv ∈ twoGlobs, exactMatches eth0 (seen kv) = false) ∧
          globMatches (testEnv allSucceed) eth0 { Match := "eth*", DHCP := true } = true ∧
          globMatches (testEnv allSucceed) eth0
            { Match := "*", MTU := 1400, Address := "10.0.0.5/24" } = true))) :=
  ⟨by decide, by decide, by decide, by decide, by decide, by decide,
    scan_order_matters_only_for_ties (testEnv allSucceed) eth0 twoGlobs twoGlobs twoGlobs.reverse
      (by decide) (by decide) (by decide) _ _ (by decide) (by decide) (by decide)⟩

/-! ## The interface configurator -/

theorem worldAfter_cons (env : Env σ) (op : Op) (ops : List Op) (w : σ) :
    worldAfter env (op :: ops) w = worldAfter env ops (env.exec op w).2 := rfl

theorem worldAfter_append (env : Env σ) (ops1 ops2 : List Op) (w : σ) :
    worldAfter env (ops1 ++ ops2) w = worldAfter env ops2 (worldAfter env ops1 w) := by
  simp [worldAfter, List.foldl_append]

/-- When the address step makes the request `first` and does not end the function, the function
continues with the steps of lines 163-193 in the world that `first` leaves. -/
theorem applyNetConf_of_first (env : Env σ) (link : Link) (netConf : InterfaceConfig) (w : σ)
    (first : Op)
    (hfirst : (netConf.IPV4LL = true ∧ first = .assignLinkLocalIP link ∧
        (env.exec first w).1 = none) ∨
      (netConf.IPV4LL = false ∧ netConf.Address ≠ "" ∧
        ∃ addr, env.ParseAddr netConf.Address = .ok addr ∧ first = .addrAdd link addr)) :
    applyNetConf env link netConf w =
      ⟨(applyNetConfSteps env link netConf (env.exec first w).2).err,
        first :: (applyNetConfSteps env link netConf (env.exec first w).2).ops,
        (applyNetConfSteps env link netConf (env.exec first w).2).world⟩ := by
  rcases hfirst with ⟨h4, rfl, hok⟩ | ⟨h4, ha, addr, hp, rfl⟩
  · simp [applyNetConf, h4, hok]
  · simp [applyNetConf, h4, ha, hp]

/-- The steps of lines 163-193 when the MTU is positive and the MTU request fails. -/
theorem steps_mtu_fails (env : Env σ) (link : Link) (netConf : InterfaceConfig) (w : σ)
    (err : Error) (hmtu : 0 < netConf.MTU)
    (hfail : (env.exec (.linkSetMTU link netConf.MTU) w).1 = some err) :
    applyNetConfSteps env link netConf w =
      ⟨some err, [.linkSetMTU link netConf.MTU], (env.exec (.linkSetMTU link netConf.MTU) w).2⟩ := by
  simp [applyNetConfSteps, hmtu, hfail]

/-- The requests of the MTU step. -/
theorem steps_ops (env : Env σ) (link : Link) (netConf : InterfaceConfig) (w : σ) :
    (0 < netConf.MTU →
      ∃ rest, (applyNetConfSteps env link netConf w).ops = .linkSetMTU link netConf.MTU :: rest ∧
        ((env.exec (.linkSetMTU link netConf.MTU) w).1 = none →
          ∃ rest1, rest = .linkSetUp link :: rest1)) ∧
    (¬ 0 < netConf.MTU →
      ∃ rest, (applyNetConfSteps env link netConf w).ops = .linkSetUp link :: rest) := by
  constructor
  · intro hmtu
    cases hm : (env.exec (.linkSetMTU link netConf.MTU) w).1 with
    | some err =>
      rw [steps_mtu_fails env link netConf w err hmtu hm]
      exact ⟨[], rfl, fun h => by cases h⟩
    | none =>
      unfold applyNetConfSteps
      simp only [gt_iff_lt, hmtu, if_true, hm]
      split
      · exact ⟨_, rfl, fun _ => ⟨_, rfl⟩⟩
      · split
        · split
          · exact ⟨_, rfl, fun _ => ⟨_, rfl⟩⟩
          · exact ⟨_, rfl, fun _ => ⟨_, rfl⟩⟩
        · exact ⟨_, rfl, fun _ => ⟨_, rfl⟩⟩
  · intro hmtu
    unfold applyNetConfSteps
    simp only [gt_iff_lt, hmtu, if_false]
    split
    · exact ⟨_, rfl⟩
    · split
      · split
        · exact ⟨_, rfl⟩
        · exact ⟨_, rfl⟩
      · exact ⟨_, rfl⟩

/-- The steps of lines 163-193 when the MTU and link-up requests succeed and the gateway is not
empty and does not parse. -/
theorem steps_bad_gateway (env : Env σ) (link : Link) (netConf : InterfaceConfig) (w : σ)
    (hmtu : 0 < netConf.MTU → (env.exec (.linkSetMTU link netConf.MTU) w).1 = none)
    (hup : (env.exec (.linkSetUp link)
      (if 0 < netConf.MTU then (env.exec (.linkSetMTU link netConf.MTU) w).2 else w)).1 = none)
    (hgw : netConf.Gateway ≠ "") (hbad : env.ParseIP netConf.Gateway = none) :
    (applyNetConfSteps env link netConf w).err =
        some ("Invalid gateway address " ++ netConf.Gateway) ∧
      ∀ route, Op.routeAdd route ∉ (applyNetConfSteps env link netConf w).ops := by
  by_cases hm : 0 < netConf.MTU
  · have h1 := hmtu hm
    simp only [hm, if_true] at hup
    simp [applyNetConfSteps, hm, h1, hup, hgw, hbad]
  · simp only [hm, if_false] at hup
    simp [applyNetConfSteps, hm, hup, hgw, hbad]

/-- The causes of an error of the steps of lines 163-193: the gateway does not parse, or the last
request made is an MTU, link-up or route request and it failed with that error. -/
theorem steps_error_causes (env : Env σ) (link : Link) (netConf : InterfaceConfig) (w : σ)
    (e : Error) (h : (applyNetConfSteps env link netConf w).err = some e) :
    (netConf.Gateway ≠ "" ∧ env.ParseIP netConf.Gateway = none ∧
        e = "Invalid gateway address " ++ netConf.Gateway) ∨
      ∃ pre op, (applyNetConfSteps env link netConf w).ops = pre ++ [op] ∧
        (env.exec op (worldAfter env pre w)).1 = some e ∧
        (op = .linkSetMTU link netConf.MTU ∨ op = .linkSetUp link ∨
          ∃ gw, env.ParseIP netConf.Gateway = some gw ∧ op = .routeAdd ⟨SCOPE_UNIVERSE, gw⟩) := by
  by_cases hm : 0 < netConf.MTU
  · cases h1 : (env.exec (.linkSetMTU link netConf.MTU) w).1 with
    | some err =>
      rw [steps_mtu_fails env link netConf w err hm h1] at h ⊢
      simp only [Option.some.injEq] at h
      subst h
      exact Or.inr ⟨[], _, rfl, h1, Or.inl rfl⟩
    | none =>
      cases h2 : (env.exec (.linkSetUp link) (env.exec (.linkSetMTU link netConf.MTU) w).2).1 with
      | some err =>
        have : applyNetConfSteps env link netConf w =
            ⟨some err, [.linkSetMTU link netConf.MTU, .linkSetUp link],
              (env.exec (.linkSetUp link) (env.exec (.linkSetMTU link netConf.MTU) w).2).2⟩ := by
          simp [applyNetConfSteps, hm, h1, h2]
        rw [this] at h ⊢
        simp only [Option.some.injEq] at h
        subst h
        exact Or.inr ⟨[.linkSetMTU link netConf.MTU], _, rfl, h2, Or.inr (Or.inl rfl)⟩
      | none =>
        by_cases hg : netConf.Gateway = ""
        · simp [applyNetConfSteps, hm, h1, h2, hg] at h
        · cases hp : env.ParseIP netConf.Gateway with
          | none =>
            simp only [applyNetConfSteps, gt_iff_lt, hm, if_true, h1, h2, ne_eq, hg,
              not_false_eq_true, hp, Option.some.injEq] at h
            exact Or.inl ⟨hg, rfl, h.symm⟩
          | some gw =>
            have : applyNetConfSteps env link netConf w =
                ⟨(env.exec (.routeAdd ⟨SCOPE_UNIVERSE, gw⟩) (env.exec (.linkSetUp link)
                    (env.exec (.linkSetMTU link netConf.MTU) w).2).2).1,
                  [.linkSetMTU link netConf.MTU, .linkSetUp link, .routeAdd ⟨SCOPE_UNIVERSE, gw⟩],
                  (env.exec (.routeAdd ⟨SCOPE_UNIVERSE, gw⟩) (env.exec (.linkSetUp link)
                    (env.exec (.linkSetMTU link netConf.MTU) w).2).2).2⟩ := by
              simp [applyNetConfSteps, hm, h1, h2, hg, hp]
            rw [this] at h ⊢
            exact Or.inr ⟨[.linkSetMTU link netConf.MTU, .linkSetUp link], _, rfl, h,
              Or.inr (Or.inr ⟨gw, rfl, rfl⟩)⟩
  · cases h2 : (env.exec (.linkSetUp link) w).1 with
    | some err =>
      have : applyNetConfSteps env link netConf w =
          ⟨some err, [.linkSetUp link], (env.exec (.linkSetUp link) w).2⟩ := by
        simp [applyNetConfSteps, hm, h2]
      rw [this] at h ⊢
      simp only [Option.some.injEq] at h
      subst h
      exact Or.inr ⟨[], _, rfl, h2, Or.inr (Or.inl rfl)⟩
    | none =>
      by_cases hg : netConf.Gateway = ""
      · simp [applyNetConfSteps, hm, h2, hg] at h
      · cases hp : env.ParseIP netConf.Gateway with
        | none =>
          simp only [applyNetConfSteps, gt_iff_lt, hm, if_false, h2, ne_eq, hg,
            not_false_eq_true, if_true, hp, Option.some.injEq] at h
          exact Or.inl ⟨hg, rfl, h.symm⟩
        | some gw =>
          have : applyNetConfSteps env link netConf w =
              ⟨(env.exec (.routeAdd ⟨SCOPE_UNIVERSE, gw⟩) (env.exec (.linkSetUp link) w).2).1,
                [.linkSetUp link, .routeAdd ⟨SCOPE_UNIVERSE, gw⟩],
                (env.exec (.routeAdd ⟨SCOPE_UNIVERSE, gw⟩) (env.exec (.linkSetUp link) w).2).2⟩ := by
            simp [applyNetConfSteps, hm, h2, hg, hp]
          rw [this] at h ⊢
          exact Or.inr ⟨[.linkSetUp link], _, rfl, h, Or.inr (Or.inr ⟨gw, rfl, rfl⟩)⟩

/-- The steps of lines 163-193 never request an address add, so they run alike in the
environment in which the address add reports success. -/
theorem steps_addSucceeds (env : Env σ) (link : Link) (netConf : InterfaceConfig) (w : σ) :
    applyNetConfSteps (addSucceeds env) link netConf w = applyNetConfSteps env link netConf w := by
  simp [applyNetConfSteps, addSucceeds]

/-- The steps of lines 163-193 when the MTU and link-up requests succeed and the gateway parses:
the route is requested last and its result is the result of the steps. -/
theorem steps_gateway (env : Env σ) (link : Link) (netConf : InterfaceConfig) (w : σ)
    (gw : List Nat)
    (hmtu : 0 < netConf.MTU → (env.exec (.linkSetMTU link netConf.MTU) w).1 = none)
    (hup : (env.exec (.linkSetUp link)
      (if 0 < netConf.MTU then (env.exec (.linkSetMTU link netConf.MTU) w).2 else w)).1 = none)
    (hgw : netConf.Gateway ≠ "") (hp : env.ParseIP netConf.Gateway = some gw) :
    (applyNetConfSteps env link netConf w).ops =
        mtuRequests link netConf ++ [.linkSetUp link, .routeAdd ⟨SCOPE_UNIVERSE, gw⟩] ∧
      (applyNetConfSteps env link netConf w).err =
        (env.exec (.routeAdd ⟨SCOPE_UNIVERSE, gw⟩)
          (env.exec (.linkSetUp link)
            (if 0 < netConf.MTU then (env.exec (.linkSetMTU link netConf.MTU) w).2
              else w)).2).1 := by
  by_cases hm : 0 < netConf.MTU
  · have h1 := hmtu hm
    simp only [hm, if_true] at hup ⊢
    simp [applyNetConfSteps, mtuRequests, hm, h1, hup, hgw, hp]
  · simp only [hm, if_false] at hup ⊢
    simp [applyNetConfSteps, mtuRequests, hm, hup, hgw, hp]

/-- The steps of lines 163-193 request the link-up after the MTU step unless the MTU set
fails. -/
theorem steps_link_up (env : Env σ) (link : Link) (netConf : InterfaceConfig) (w : σ)
    (hmtu : 0 < netConf.MTU → (env.exec (.linkSetMTU link netConf.MTU) w).1 = none) :
    ∃ rest, (applyNetConfSteps env link netConf w).ops =
      mtuRequests link netConf ++ .linkSetUp link :: rest := by
  obtain ⟨h1, h2⟩ := steps_ops env link netConf w
  by_cases hm : 0 < netConf.MTU
  · obtain ⟨rest, hr, hup⟩ := h1 hm
    obtain ⟨rest1, hr1⟩ := hup (hmtu hm)
    exact ⟨rest1, by simp [hr, hr1, mtuRequests, hm]⟩
  · obtain ⟨rest, hr⟩ := h2 hm
    exact ⟨rest, by simp [hr, mtuRequests, hm]⟩

/-- C6, as stated, fails: an entry with `ipv4ll` false and an empty address makes `applyNetConf`
return at line 149 before the MTU and link-up steps, although its MTU is positive and no step
failed; and when the MTU request fails the link-up is not requested. -/
theorem mtu_and_link_up_skipped_counterexample :
    mtuOnly.IPV4LL = false ∧ mtuOnly.Address = "" ∧ 0 < mtuOnly.MTU ∧
      (applyNetConf (testEnv allSucceed) eth0 mtuOnly [eth0]).err = none ∧
      (applyNetConf (testEnv allSucceed) eth0 mtuOnly [eth0]).ops = [] ∧
      (applyNetConf (testEnv mtuFails) eth0 staticWithMTU [eth0]).ops =
        [.addrAdd eth0 addr5, .linkSetMTU eth0 1400] := by
  decide

/-- C6, as amended. Steps 3 and 4 apply to every matched entry with `ipv4ll` true or a non-empty
address: when the address step makes its request `first` and does not fail fatally (the
link-local assignment succeeds, or the address parses), `applyNetConf` next requests setting the
MTU of the link to `mtu` when `mtu > 0` and then, unless that request fails, requests bringing
the link up; when `mtu` is not positive the link-up request follows `first` directly. -/
theorem mtu_then_link_up (env : Env σ) (link : Link) (netConf : InterfaceConfig) (w : σ)
    (first : Op)
    (hfirst : (netConf.IPV4LL = true ∧ first = .assignLinkLocalIP link ∧
        (env.exec first w).1 = none) ∨
      (netConf.IPV4LL = false ∧ netConf.Address ≠ "" ∧
        ∃ addr, env.ParseAddr netConf.Address = .ok addr ∧ first = .addrAdd link addr)) :
    (0 < netConf.MTU →
      ∃ rest, (applyNetConf env link netConf w).ops =
          first :: .linkSetMTU link netConf.MTU :: rest ∧
        ((env.exec (.linkSetMTU link netConf.MTU) (env.exec first w).2).1 = none →
          ∃ rest1, rest = .linkSetUp link :: rest1)) ∧
    (¬ 0 < netConf.MTU →
      ∃ rest, (applyNetConf env link netConf w).ops = first :: .linkSetUp link :: rest) := by
  rw [applyNetConf_of_first env link netConf w first hfirst]
  obtain ⟨h1, h2⟩ := steps_ops env link netConf (env.exec first w).2
  constructor
  · intro hm
    obtain ⟨rest, hr, hup⟩ := h1 hm
    exact ⟨rest, by simp [hr], hup⟩
  · intro hm
    obtain ⟨rest, hr⟩ := h2 hm
    exact ⟨rest, by simp [hr]⟩

theorem mtu_then_link_up_witness :
    ((staticWithMTU.IPV4LL = true ∧ Op.addrAdd eth0 addr5 = .assignLinkLocalIP eth0 ∧
        ((testEnv allSucceed).exec (.addrAdd eth0 addr5) [eth0]).1 = none) ∨
      (staticWithMTU.IPV4LL = false ∧ staticWithMTU.Address ≠ "" ∧
        ∃ addr, (testEnv allSucceed).ParseAddr staticWithMTU.Address = .ok addr ∧
          Op.addrAdd eth0 addr5 = .addrAdd eth0 addr)) ∧
    ((0 < staticWithMTU.MTU →
      ∃ rest, (applyNetConf (testEnv allSucceed) eth0 staticWithMTU [eth0]).ops =
          .addrAdd eth0 addr5 :: .linkSetMTU eth0 staticWithMTU.MTU :: rest ∧
        (((testEnv allSucceed).exec (.linkSetMTU eth0 staticWithMTU.MTU)
            ((testEnv allSucceed).exec (.addrAdd eth0 addr5) [eth0]).2).1 = none →
          ∃ rest1, rest = .linkSetUp eth0 :: rest1)) ∧
    (¬ 0 < staticWithMTU.MTU →
      ∃ rest, (applyNetConf (testEnv allSucceed) eth0 staticWithMTU [eth0]).ops =
        .addrAdd eth0 addr5 :: .linkSetUp eth0 :: rest)) :=
  ⟨Or.inr ⟨by decide, by decide, addr5, by decide, rfl⟩,
    mtu_then_link_up (testEnv allSucceed) eth0 staticWithMTU [eth0] (.addrAdd eth0 addr5)
      (Or.inr ⟨by decide, by decide, addr5, by decide, rfl⟩)⟩

/-- C7, as stated, fails: for an entry with `ipv4ll` false and an empty address whose gateway is
not empty and does not parse, no step fails and `applyNetConf` returns no error, because it
returns at line 149 before the gateway step. -/
theorem invalid_gateway_ignored_counterexample :
    badGatewayOnly.Gateway ≠ "" ∧ (testEnv allSucceed).ParseIP badGatewayOnly.Gateway = none ∧
      (applyNetConf (testEnv allSucceed) eth0 badGatewayOnly [eth0]).err = none ∧
      (applyNetConf (testEnv allSucceed) eth0 badGatewayOnly [eth0]).ops = [] := by
  decide

/-- C7, as amended. An invalid gateway is fatal for every matched entry with `ipv4ll` true or a
non-empty address: when the gateway is not empty and does not parse as an IP address and no
earlier step fails (the address step makes its request `first` without a fatal failure, the MTU
request succeeds when `mtu > 0`, the link-up request succeeds), `applyNetConf` returns the error
`Invalid gateway address ` followed by the gateway string and requests no route. -/
theorem invalid_gateway_is_fatal (env : Env σ) (link : Link) (netConf : InterfaceConfig) (w : σ)
    (first : Op)
    (hfirst : (netConf.IPV4LL = true ∧ first = .assignLinkLocalIP link ∧
        (env.exec first w).1 = none) ∨
      (netConf.IPV4LL = false ∧ netConf.Address ≠ "" ∧
        ∃ addr, env.ParseAddr netConf.Address = .ok addr ∧ first = .addrAdd link addr))
    (hmtu : 0 < netConf.MTU →
      (env.exec (.linkSetMTU link netConf.MTU) (env.exec first w).2).1 = none)
    (hup : (env.exec (.linkSetUp link)
      (if 0 < netConf.MTU then (env.exec (.linkSetMTU link netConf.MTU) (env.exec first w).2).2
        else (env.exec first w).2)).1 = none)
    (hgw : netConf.Gateway ≠ "") (hbad : env.ParseIP netConf.Gateway = none) :
    (applyNetConf env link netConf w).err = some ("Invalid gateway address " ++ netConf.Gateway) ∧
      ∀ route, Op.routeAdd route ∉ (applyNetConf env link netConf w).ops := by
  rw [applyNetConf_of_first env link netConf w first hfirst]
  obtain ⟨he, hr⟩ := steps_bad_gateway env link netConf (env.exec first w).2 hmtu hup hgw hbad
  refine ⟨he, ?_⟩
  intro route hmem
  rcases List.mem_cons.mp hmem with h | h
  · rcases hfirst with ⟨_, rfl, _⟩ | ⟨_, _, addr, _, rfl⟩ <;> cases h
  · exact hr route h

theorem invalid_gateway_is_fatal_witness :
    ((staticBadGateway.IPV4LL = true ∧ Op.addrAdd eth0 addr5 = .assignLinkLocalIP eth0 ∧
        ((testEnv allSucceed).exec (.addrAdd eth0 addr5) [eth0]).1 = none) ∨
      (staticBadGateway.IPV4LL = false ∧ staticBadGateway.Address ≠ "" ∧
        ∃ addr, (testEnv allSucceed).ParseAddr staticBadGateway.Address = .ok addr ∧
          Op.addrAdd eth0 addr5 = .addrAdd eth0 addr)) ∧
    staticBadGateway.Gateway ≠ "" ∧
    (testEnv allSucceed).ParseIP staticBadGateway.Gateway = none ∧
    (applyNetConf (testEnv allSucceed) eth0 staticBadGateway [eth0]).err =
      some ("Invalid gateway address " ++ staticBadGateway.Gateway) ∧
    ∀ route, Op.routeAdd route ∉ (applyNetConf (testEnv allSucceed) eth0 staticBadGateway [eth0]).ops :=
  ⟨Or.inr ⟨by decide, by decide, addr5, by decide, rfl⟩, by decide, by decide,
    invalid_gateway_is_fatal (testEnv allSucceed) eth0 staticBadGateway [eth0]
      (.addrAdd eth0 addr5) (Or.inr ⟨by decide, by decide, addr5, by decide, rfl⟩)
      (fun _ => rfl) rfl (by decide) (by decide)⟩

/-- C8, as stated, fails: an address that does not parse makes `applyNetConf` return the error of
the parser at line 153, although no request was made, so no link-local, MTU, link-up or route
request failed, and the gateway is empty. -/
theorem unparsable_address_counterexample :
    badAddress.IPV4LL = false ∧ badAddress.Gateway = "" ∧
      (applyNetConf (testEnv allSucceed) eth0 badAddress [eth0]).err =
        some "invalid CIDR address: bogus" ∧
      (applyNetConf (testEnv allSucceed) eth0 badAddress [eth0]).ops = [] := by
  decide

/-- C8, as amended. The per-link fatal errors are exactly these: `applyNetConf` returns an error
only if the static address does not parse, the gateway does not parse, or the last request it
made failed and that request is the link-local assignment, the MTU set, the link-up or the route
add. The request is never the address add: with a static address that parses, the result is the
result of the steps after the add, whatever the add returned. -/
theorem applyNetConf_error_causes (env : Env σ) (link : Link) (netConf : InterfaceConfig)
    (w : σ) :
    (∀ e, (applyNetConf env link netConf w).err = some e →
      (netConf.IPV4LL = false ∧ netConf.Address ≠ "" ∧
          env.ParseAddr netConf.Address = .error e) ∨
        (netConf.Gateway ≠ "" ∧ env.ParseIP netConf.Gateway = none ∧
          e = "Invalid gateway address " ++ netConf.Gateway) ∨
        ∃ pre op, (applyNetConf env link netConf w).ops = pre ++ [op] ∧
          (env.exec op (worldAfter env pre w)).1 = some e ∧
          (op = .assignLinkLocalIP link ∨ op = .linkSetMTU link netConf.MTU ∨
            op = .linkSetUp link ∨
            ∃ gw, env.ParseIP netConf.Gateway = some gw ∧ op = .routeAdd ⟨SCOPE_UNIVERSE, gw⟩)) ∧
    (∀ addr, netConf.IPV4LL = false → netConf.Address ≠ "" →
      env.ParseAddr netConf.Address = .ok addr →
      (applyNetConf env link netConf w).err =
        (applyNetConfSteps env link netConf (env.exec (.addrAdd link addr) w).2).err) := by
  constructor
  · intro e h
    -- the error of the steps after a first request
    have after : ∀ first : Op,
        (applyNetConfSteps env link netConf (env.exec first w).2).err = some e →
        (netConf.Gateway ≠ "" ∧ env.ParseIP netConf.Gateway = none ∧
          e = "Invalid gateway address " ++ netConf.Gateway) ∨
        ∃ pre op, first :: (applyNetConfSteps env link netConf (env.exec first w).2).ops =
            pre ++ [op] ∧
          (env.exec op (worldAfter env pre w)).1 = some e ∧
          (op = .assignLinkLocalIP link ∨ op = .linkSetMTU link netConf.MTU ∨
            op = .linkSetUp link ∨
            ∃ gw, env.ParseIP netConf.Gateway = some gw ∧ op = .routeAdd ⟨SCOPE_UNIVERSE, gw⟩) := by
      intro first hs
      rcases steps_error_causes env link netConf _ e hs with hg | ⟨pre, op, hops, hex, hop⟩
      · exact Or.inl hg
      · refine Or.inr ⟨first :: pre, op, by simp [hops], by rw [worldAfter_cons]; exact hex, ?_⟩
        rcases hop with h1 | h1 | h1
        · exact Or.inr (Or.inl h1)
        · exact Or.inr (Or.inr (Or.inl h1))
        · exact Or.inr (Or.inr (Or.inr h1))
    by_cases h4 : netConf.IPV4LL = true
    · cases hl : (env.exec (.assignLinkLocalIP link) w).1 with
      | some err =>
        have : applyNetConf env link netConf w =
            ⟨some err, [.assignLinkLocalIP link], (env.exec (.assignLinkLocalIP link) w).2⟩ := by
          simp [applyNetConf, h4, hl]
        rw [this] at h ⊢
        simp only [Option.some.injEq] at h
        subst h
        exact Or.inr (Or.inr ⟨[], _, rfl, hl, Or.inl rfl⟩)
      | none =>
        rw [applyNetConf_of_first env link netConf w _ (Or.inl ⟨h4, rfl, hl⟩)] at h ⊢
        exact Or.inr (after _ h)
    · simp only [Bool.not_eq_true] at h4
      by_cases ha : netConf.Address = ""
      · simp [applyNetConf, h4, ha] at h
      · cases hp : env.ParseAddr netConf.Address with
        | error err =>
          have : applyNetConf env link netConf w = ⟨some err, [], w⟩ := by
            simp [applyNetConf, h4, ha, hp]
          rw [this] at h
          simp only [Option.some.injEq] at h
          subst h
          exact Or.inl ⟨h4, ha, rfl⟩
        | ok addr =>
          rw [applyNetConf_of_first env link netConf w _ (Or.inr ⟨h4, ha, addr, hp, rfl⟩)] at h ⊢
          exact Or.inr (after _ h)
  · intro addr h4 ha hp
    rw [applyNetConf_of_first env link netConf w _ (Or.inr ⟨h4, ha, addr, hp, rfl⟩)]

theorem applyNetConf_error_causes_witness :
    (applyNetConf (testEnv mtuFails) eth0 staticWithMTU [eth0]).err =
        some "operation not permitted" ∧
      ((staticWithMTU.IPV4LL = false ∧ staticWithMTU.Address ≠ "" ∧
          (testEnv mtuFails).ParseAddr staticWithMTU.Address = .error "operation not permitted") ∨
        (staticWithMTU.Gateway ≠ "" ∧ (testEnv mtuFails).ParseIP staticWithMTU.Gateway = none ∧
          "operation not permitted" = "Invalid gateway address " ++ staticWithMTU.Gateway) ∨
        ∃ pre op, (applyNetConf (testEnv mtuFails) eth0 staticWithMTU [eth0]).ops = pre ++ [op] ∧
          ((testEnv mtuFails).exec op (worldAfter (testEnv mtuFails) pre [eth0])).1 =
            some "operation not permitted" ∧
          (op = .assignLinkLocalIP eth0 ∨ op = .linkSetMTU eth0 staticWithMTU.MTU ∨
            op = .linkSetUp eth0 ∨
            ∃ gw, (testEnv mtuFails).ParseIP staticWithMTU.Gateway = some gw ∧
              op = .routeAdd ⟨SCOPE_UNIVERSE, gw⟩)) :=
  ⟨by decide,
    (applyNetConf_error_causes (testEnv mtuFails) eth0 staticWithMTU [eth0]).1
      "operation not permitted" (by decide)⟩

/-- C9. A rejected static-address add is swallowed: for an entry with `ipv4ll` false and a
non-empty address that parses, when the address-add request fails with an error `e`,
`applyNetConf` still performs the later steps. After the add it requests the MTU set when
`mtu > 0`; then, unless the MTU set fails, the link-up; then, unless one of them fails and when
the gateway is not empty, it parses the gateway and either requests the universal-scope route
through it, whose result is the result of the call, or returns the invalid-gateway error. The
requests and the result are those of the environment in which the add reports success, although
the two environments differ on the add. -/
theorem addr_add_failure_swallowed (env : Env σ) (link : Link) (netConf : InterfaceConfig)
    (w : σ) (addr : Addr) (e : Error)
    (h4 : netConf.IPV4LL = false) (ha : netConf.Address ≠ "")
    (hp : env.ParseAddr netConf.Address = .ok addr)
    (hfail : (env.exec (.addrAdd link addr) w).1 = some e) :
    (0 < netConf.MTU →
      ∃ rest, (applyNetConf env link netConf w).ops =
        .addrAdd link addr :: .linkSetMTU link netConf.MTU :: rest) ∧
    ((0 < netConf.MTU →
        (env.exec (.linkSetMTU link netConf.MTU) (env.exec (.addrAdd link addr) w).2).1 = none) →
      ∃ rest, (applyNetConf env link netConf w).ops =
        .addrAdd link addr :: (mtuRequests link netConf ++ .linkSetUp link :: rest)) ∧
    ((0 < netConf.MTU →
        (env.exec (.linkSetMTU link netConf.MTU) (env.exec (.addrAdd link addr) w).2).1 = none) →
      (env.exec (.linkSetUp link)
        (if 0 < netConf.MTU then
          (env.exec (.linkSetMTU link netConf.MTU) (env.exec (.addrAdd link addr) w).2).2
        else (env.exec (.addrAdd link addr) w).2)).1 = none →
      netConf.Gateway ≠ "" →
      (∀ gw, env.ParseIP netConf.Gateway = some gw →
        (applyNetConf env link netConf w).ops =
            .addrAdd link addr ::
              (mtuRequests link netConf ++ [.linkSetUp link, .routeAdd ⟨SCOPE_UNIVERSE, gw⟩]) ∧
          (applyNetConf env link netConf w).err =
            (env.exec (.routeAdd ⟨SCOPE_UNIVERSE, gw⟩)
              (env.exec (.linkSetUp link)
                (if 0 < netConf.MTU then
                  (env.exec (.linkSetMTU link netConf.MTU) (env.exec (.addrAdd link addr) w).2).2
                else (env.exec (.addrAdd link addr) w).2)).2).1) ∧
      (env.ParseIP netConf.Gateway = none →
        (applyNetConf env link netConf w).err =
          some ("Invalid gateway address " ++ netConf.Gateway))) ∧
    (addSucceeds env).exec (.addrAdd link addr) w ≠ env.exec (.addrAdd link addr) w ∧
    ((addSucceeds env).exec (.addrAdd link addr) w).1 = none ∧
    applyNetConf (addSucceeds env) link netConf w = applyNetConf env link netConf w := by
  have hfirst := applyNetConf_of_first env link netConf w (.addrAdd link addr)
    (Or.inr ⟨h4, ha, addr, hp, rfl⟩)
  have hp1 : (addSucceeds env).ParseAddr netConf.Address = .ok addr := hp
  have hfirst1 := applyNetConf_of_first (addSucceeds env) link netConf w (.addrAdd link addr)
    (Or.inr ⟨h4, ha, addr, hp1, rfl⟩)
  refine ⟨?_, ?_, ?_, ?_, rfl, ?_⟩
  · intro hm
    obtain ⟨rest, hr, _⟩ := (steps_ops env link netConf (env.exec (.addrAdd link addr) w).2).1 hm
    exact ⟨rest, by rw [hfirst]; simp [hr]⟩
  · intro hmtu
    obtain ⟨rest, hr⟩ := steps_link_up env link netConf _ hmtu
    exact ⟨rest, by rw [hfirst]; simp [hr]⟩
  · intro hmtu hup hgw
    constructor
    · intro gw hgp
      obtain ⟨ho, he⟩ := steps_gateway env link netConf _ gw hmtu hup hgw hgp
      rw [hfirst]
      exact ⟨by simp [ho], he⟩
    · intro hbad
      rw [hfirst]
      exact (steps_bad_gateway env link netConf _ hmtu hup hgw hbad).1
  · intro heq
    have h1 : ((addSucceeds env).exec (.addrAdd link addr) w).1 = none := rfl
    rw [heq, hfail] at h1
    cases h1
  · rw [hfirst, hfirst1, steps_addSucceeds]
    rfl

theorem addr_add_failure_swallowed_witness :
    staticFull.IPV4LL = false ∧ staticFull.Address ≠ "" ∧
    (testEnv addrAddFails).ParseAddr staticFull.Address = .ok addr5 ∧
    ((testEnv addrAddFails).exec (.addrAdd eth0 addr5) [eth0]).1 = some "file exists" ∧
    (applyNetConf (testEnv addrAddFails) eth0 staticFull [eth0]).ops =
      [.addrAdd eth0 addr5, .linkSetMTU eth0 1400, .linkSetUp eth0,
        .routeAdd ⟨SCOPE_UNIVERSE, [0, 0, 0, 0, 0, 0, 0, 0, 0, 0, 255, 255, 10, 0, 0, 1]⟩] ∧
    (applyNetConf (testEnv addrAddFails) eth0 staticFull [eth0]).err = none ∧
    (0 < staticFull.MTU →
      ∃ rest, (applyNetConf (testEnv addrAddFails) eth0 staticFull [eth0]).ops =
        .addrAdd eth0 addr5 :: .linkSetMTU eth0 staticFull.MTU :: rest) ∧
    ((0 < staticFull.MTU →
        ((testEnv addrAddFails).exec (.linkSetMTU eth0 staticFull.MTU)
          ((testEnv addrAddFails).exec (.addrAdd eth0 addr5) [eth0]).2).1 = none) →
      ∃ rest, (applyNetConf (testEnv addrAddFails) eth0 staticFull [eth0]).ops =
        .addrAdd eth0 addr5 :: (mtuRequests eth0 staticFull ++ .linkSetUp eth0 :: rest)) ∧
    (addSucceeds (testEnv addrAddFails)).exec (.addrAdd eth0 addr5) [eth0] ≠
      (testEnv addrAddFails).exec (.addrAdd eth0 addr5) [eth0] ∧
    applyNetConf (addSucceeds (testEnv addrAddFails)) eth0 staticFull [eth0] =
      applyNetConf (testEnv addrAddFails) eth0 staticFull [eth0] :=
  ⟨by decide, by decide, by decide, by decide, by decide, by decide,
    (addr_add_failure_swallowed (testEnv addrAddFails) eth0 staticFull [eth0] addr5 "file exists"
      (by decide) (by decide) (by decide) (by decide)).1,
    (addr_add_failure_swallowed (testEnv addrAddFails) eth0 staticFull [eth0] addr5 "file exists"
      (by decide) (by decide) (by decide) (by decide)).2.1,
    (addr_add_failure_swallowed (testEnv addrAddFails) eth0 staticFull [eth0] addr5 "file exists"
      (by decide) (by decide) (by decide) (by decide)).2.2.2.1,
    (addr_add_failure_swallowed (testEnv addrAddFails) eth0 staticFull [eth0] addr5 "file exists"
      (by decide) (by decide) (by decide) (by decide)).2.2.2.2.2⟩

/-! ## The run -/

/-- The function `createInterfaces` always returns `nil`. -/
theorem createInterfaces_err (env : Env σ) :
    ∀ (scan : List (String × InterfaceConfig)) (w : σ), (createInterfaces env scan w).err = none := by
  intro scan
  induction scan with
  | nil => intro w; rfl
  | cons kv rest ih =>
    intro w
    obtain ⟨name, iface⟩ := kv
    by_cases hb : iface.Bridge = true
    · simp [createInterfaces, hb, ih]
    · simp [createInterfaces, hb, ih]

/-- When no resolution fails, the link loop runs to its end. -/
theorem linkLoop_ok (env : Env σ)
    (iter : Nat → List (String × InterfaceConfig) → List (String × InterfaceConfig))
    (netCfg : NetworkConfig)
    (hres : ∀ link k, ∃ m, resolve env link (iter k netCfg.Interfaces) = .ok m) :
    ∀ (links : List Link) (k : Nat) (st : LoopState σ),
      ∃ st1, linkLoop env iter netCfg k links st = .ok st1 := by
  intro links
  induction links with
  | nil => intro k st; exact ⟨st, rfl⟩
  | cons link links ih =>
    intro k st
    obtain ⟨m, hm⟩ := hres link k
    obtain ⟨st1, h1⟩ := ih (k + 1) (applyMatch env link m st)
    exact ⟨st1, by simp [linkLoop, hm, h1]⟩

/-- C4 fails on the code at this input: `applyNetConf` fails on `eth0`, the first link of the
inventory, with the invalid-gateway error, every link is attempted, and the run returns no error,
because the assignment of line 118 for `eth1` overwrites the error of `eth0` with `nil`. -/
theorem first_error_overwritten :
    resolve (testEnv allSucceed) eth0 firstLinkFails.Interfaces = .ok staticBadGateway ∧
      (applyNetConf (testEnv allSucceed) eth0 staticBadGateway [eth0, eth1]).err =
        some "Invalid gateway address not-an-ip" ∧
      (ApplyNetworkConfigs (testEnv allSucceed) listed firstLinkFails [eth0, eth1]).err = none ∧
      (ApplyNetworkConfigs (testEnv allSucceed) listed firstLinkFails [eth0, eth1]).ops =
        [.addrAdd eth0 addr5, .linkSetUp eth0,
          .addrAdd eth1 addr6, .linkSetUp eth1] := by
  decide

/-- C5, as stated, fails: a MAC specifier whose remainder does not parse makes resolution fail,
and `ApplyNetworkConfigs` returns the error of the parser from inside the link loop: no request
is made for any link and the DHCP client is not run, although the `eth*` entry puts `eth0` on
DHCP. -/
theorem unparsable_mac_aborts_run_counterexample :
    resolve (testEnv allSucceed) eth0 unparsableMac.Interfaces =
        .error "address zz: invalid MAC address" ∧
      resolve (testEnv allSucceed) eth0 unparsableMac.Interfaces.reverse =
        .error "address zz: invalid MAC address" ∧
      (ApplyNetworkConfigs (testEnv allSucceed) listed unparsableMac [eth0, eth1]).err =
        some "address zz: invalid MAC address" ∧
      (ApplyNetworkConfigs (testEnv allSucceed) listed unparsableMac [eth0, eth1]).ops = [] ∧
      (ApplyNetworkConfigs (testEnv allSucceed) listed dhcpOnly [eth0, eth1]).ops =
        [.command "dhcpcd" ["-MA4", "-e", "force_hostname=true", "eth0", "eth1"]] := by
  decide

/-! ## The interface configurator: order and frame -/

/-- The requests of the steps of lines 163-193 are the MTU set, the link-up and the route add. -/
theorem steps_ops_kinds (env : Env σ) (link : Link) (netConf : InterfaceConfig) (w : σ) :
    ∀ op ∈ (applyNetConfSteps env link netConf w).ops,
      op = .linkSetMTU link netConf.MTU ∨ op = .linkSetUp link ∨
        ∃ gw, op = .routeAdd ⟨SCOPE_UNIVERSE, gw⟩ := by
  intro op h
  unfold applyNetConfSteps at h
  by_cases hm : 0 < netConf.MTU <;> simp only [gt_iff_lt, hm, if_true, if_false] at h <;>
    repeat' split at h
  all_goals simp at h
  all_goals aesop

/-- The steps of lines 163-193 do not call `netlink.ParseAddr`. -/
theorem steps_withParseAddr (env : Env σ) (parse : String → Except Error Addr) (link : Link)
    (netConf : InterfaceConfig) (w : σ) :
    applyNetConfSteps (withParseAddr env parse) link netConf w =
      applyNetConfSteps env link netConf w := by
  simp [applyNetConfSteps, withParseAddr]

/-- With `ipv4ll` set, `applyNetConf` requests the link-local assignment first and, when it
succeeds, goes on with the steps of lines 163-193. -/
theorem applyNetConf_ipv4ll (env : Env σ) (link : Link) (netConf : InterfaceConfig) (w : σ)
    (h4 : netConf.IPV4LL = true) :
    (applyNetConf env link netConf w).ops = [.assignLinkLocalIP link] ∨
      (applyNetConf env link netConf w).ops = .assignLinkLocalIP link ::
        (applyNetConfSteps env link netConf (env.exec (.assignLinkLocalIP link) w).2).ops := by
  cases hl : (env.exec (.assignLinkLocalIP link) w).1 with
  | some err => left; simp [applyNetConf, h4, hl]
  | none =>
    right
    rw [applyNetConf_of_first env link netConf w _ (Or.inl ⟨h4, rfl, hl⟩)]

/-- Without `ipv4ll` and without an address, `applyNetConf` returns at line 149. -/
theorem applyNetConf_no_address (env : Env σ) (link : Link) (netConf : InterfaceConfig) (w : σ)
    (h4 : netConf.IPV4LL = false) (ha : netConf.Address = "") :
    applyNetConf env link netConf w = ⟨none, [], w⟩ := by
  simp [applyNetConf, h4, ha]

/-- An address add among the requests of `applyNetConf` is the add of the parsed address of an
entry without `ipv4ll`. -/
theorem applyNetConf_addrAdd (env : Env σ) (link : Link) (netConf : InterfaceConfig) (w : σ)
    (l : Link) (a : Addr) (h : Op.addrAdd l a ∈ (applyNetConf env link netConf w).ops) :
    netConf.IPV4LL = false ∧ netConf.Address ≠ "" ∧ l = link ∧
      env.ParseAddr netConf.Address = .ok a := by
  have hsteps : ∀ w1, Op.addrAdd l a ∉ (applyNetConfSteps env link netConf w1).ops := by
    intro w1 hmem
    rcases steps_ops_kinds env link netConf w1 _ hmem with h1 | h1 | ⟨gw, h1⟩ <;> cases h1
  by_cases h4 : netConf.IPV4LL = true
  · rcases applyNetConf_ipv4ll env link netConf w h4 with h1 | h1
    · rw [h1] at h
      simp at h
    · rw [h1] at h
      rcases List.mem_cons.mp h with h2 | h2
      · cases h2
      · exact absurd h2 (hsteps _)
  · simp only [Bool.not_eq_true] at h4
    by_cases ha : netConf.Address = ""
    · rw [applyNetConf_no_address env link netConf w h4 ha] at h
      simp at h
    · cases hp : env.ParseAddr netConf.Address with
      | error err =>
        have : applyNetConf env link netConf w = ⟨some err, [], w⟩ := by
          simp [applyNetConf, h4, ha, hp]
        rw [this] at h
        simp at h
      | ok addr =>
        rw [applyNetConf_of_first env link netConf w _ (Or.inr ⟨h4, ha, addr, hp, rfl⟩)] at h
        rcases List.mem_cons.mp h with h2 | h2
        · simp only [Op.addrAdd.injEq] at h2
          exact ⟨h4, ha, h2.1, by rw [h2.2]⟩
        · exact absurd h2 (hsteps _)

/-- C15. `ipv4ll` takes precedence over `address`: for an entry with `ipv4ll` true,
`applyNetConf` requests the link-local assignment first, requests no address add and does not
call the address parser (its outcome is the same whatever the parser is), whatever the address
string; an address add is requested only for an entry with `ipv4ll` false and a non-empty
address, and it adds the parsed address to the link; so the link-local assignment and the address
add are never both requested for one link. -/
theorem ipv4ll_over_address (env : Env σ) (link : Link) (netConf : InterfaceConfig) (w : σ) :
    (netConf.IPV4LL = true →
      (∃ rest, (applyNetConf env link netConf w).ops = .assignLinkLocalIP link :: rest) ∧
        (∀ l a, Op.addrAdd l a ∉ (applyNetConf env link netConf w).ops) ∧
        (∀ parse, applyNetConf (withParseAddr env parse) link netConf w =
          applyNetConf env link netConf w)) ∧
      (∀ l a, Op.addrAdd l a ∈ (applyNetConf env link netConf w).ops →
        netConf.IPV4LL = false ∧ netConf.Address ≠ "" ∧ l = link ∧
          env.ParseAddr netConf.Address = .ok a) ∧
      ¬ ((∃ l, Op.assignLinkLocalIP l ∈ (applyNetConf env link netConf w).ops) ∧
        (∃ l a, Op.addrAdd l a ∈ (applyNetConf env link netConf w).ops)) := by
  refine ⟨?_, applyNetConf_addrAdd env link netConf w, ?_⟩
  · intro h4
    refine ⟨?_, ?_, ?_⟩
    · rcases applyNetConf_ipv4ll env link netConf w h4 with h1 | h1
      · exact ⟨_, h1⟩
      · exact ⟨_, h1⟩
    · intro l a hmem
      have := (applyNetConf_addrAdd env link netConf w l a hmem).1
      rw [h4] at this
      cases this
    · intro parse
      cases hl : (env.exec (.assignLinkLocalIP link) w).1 with
      | some err =>
        have hl1 : ((withParseAddr env parse).exec (.assignLinkLocalIP link) w).1 = some err := hl
        simp only [applyNetConf, h4, if_true, hl, hl1]
        rfl
      | none =>
        have hl1 : ((withParseAddr env parse).exec (.assignLinkLocalIP link) w).1 = none := hl
        rw [applyNetConf_of_first env link netConf w _ (Or.inl ⟨h4, rfl, hl⟩),
          applyNetConf_of_first (withParseAddr env parse) link netConf w _
            (Or.inl ⟨h4, rfl, hl1⟩), steps_withParseAddr]
        rfl
  · rintro ⟨⟨l1, h1⟩, ⟨l2, a, h2⟩⟩
    obtain ⟨h4, ha, _, hp⟩ := applyNetConf_addrAdd env link netConf w l2 a h2
    rw [applyNetConf_of_first env link netConf w _ (Or.inr ⟨h4, ha, a, hp, rfl⟩)] at h1
    rcases List.mem_cons.mp h1 with h3 | h3
    · cases h3
    · rcases steps_ops_kinds env link netConf _ _ h3 with h5 | h5 | ⟨gw, h5⟩ <;> cases h5

theorem ipv4ll_over_address_witness :
    linkLocalWithAddress.IPV4LL = true ∧ linkLocalWithAddress.Address = "10.0.0.5/24" ∧
    (applyNetConf (testEnv allSucceed) eth0 linkLocalWithAddress [eth0]).ops =
      [.assignLinkLocalIP eth0, .linkSetUp eth0] ∧
    ((∃ rest, (applyNetConf (testEnv allSucceed) eth0 linkLocalWithAddress [eth0]).ops =
        .assignLinkLocalIP eth0 :: rest) ∧
      (∀ l a, Op.addrAdd l a ∉
        (applyNetConf (testEnv allSucceed) eth0 linkLocalWithAddress [eth0]).ops) ∧
      (∀ parse, applyNetConf (withParseAddr (testEnv allSucceed) parse) eth0
          linkLocalWithAddress [eth0] =
        applyNetConf (testEnv allSucceed) eth0 linkLocalWithAddress [eth0])) :=
  ⟨by decide, by decide, by decide,
    (ipv4ll_over_address (testEnv allSucceed) eth0 linkLocalWithAddress [eth0]).1 (by decide)⟩

/-- C16. The steps run in the stated order: for an entry with `ipv4ll` false, an address that is
not empty and parses, and a gateway that is not empty and parses, when every request succeeds
`applyNetConf` returns no error and requests exactly: the add of the parsed address, the MTU set
(only when `mtu > 0`), the link-up, and the add of a universal-scope route through the parsed
gateway. -/
theorem steps_in_stated_order (env : Env σ) (link : Link) (netConf : InterfaceConfig) (w : σ)
    (addr : Addr) (gw : List Nat)
    (h4 : netConf.IPV4LL = false) (ha : netConf.Address ≠ "")
    (hp : env.ParseAddr netConf.Address = .ok addr)
    (hg : netConf.Gateway ≠ "") (hgw : env.ParseIP netConf.Gateway = some gw)
    (hok : ∀ op w1, (env.exec op w1).1 = none) :
    (applyNetConf env link netConf w).err = none ∧
      (applyNetConf env link netConf w).ops =
        .addrAdd link addr ::
          ((if 0 < netConf.MTU then [.linkSetMTU link netConf.MTU] else []) ++
            [.linkSetUp link, .routeAdd ⟨SCOPE_UNIVERSE, gw⟩]) := by
  rw [applyNetConf_of_first env link netConf w _ (Or.inr ⟨h4, ha, addr, hp, rfl⟩)]
  by_cases hm : 0 < netConf.MTU
  · simp [applyNetConfSteps, hm, hok, hg, hgw]
  · simp [applyNetConfSteps, hm, hok, hg, hgw]

theorem steps_in_stated_order_witness :
    staticScenario.IPV4LL = false ∧ staticScenario.Address ≠ "" ∧
    (testEnv allSucceed).ParseAddr staticScenario.Address = .ok addr5 ∧
    staticScenario.Gateway ≠ "" ∧
    (testEnv allSucceed).ParseIP staticScenario.Gateway = some gateway1 ∧
    (∀ op w1, ((testEnv allSucceed).exec op w1).1 = none) ∧
    (applyNetConf (testEnv allSucceed) eth0 staticScenario [eth0]).ops =
      [.addrAdd eth0 addr5, .linkSetUp eth0, .routeAdd ⟨SCOPE_UNIVERSE, gateway1⟩] ∧
    ((applyNetConf (testEnv allSucceed) eth0 staticScenario [eth0]).err = none ∧
      (applyNetConf (testEnv allSucceed) eth0 staticScenario [eth0]).ops =
        .addrAdd eth0 addr5 ::
          ((if 0 < staticScenario.MTU then [.linkSetMTU eth0 staticScenario.MTU] else []) ++
            [.linkSetUp eth0, .routeAdd ⟨SCOPE_UNIVERSE, gateway1⟩])) :=
  ⟨by decide, by decide, by decide, by decide, by decide, fun _ _ => rfl, by decide,
    steps_in_stated_order (testEnv allSucceed) eth0 staticScenario [eth0] addr5 gateway1
      (by decide) (by decide) (by decide) (by decide) (by decide) (fun _ _ => rfl)⟩

/-- C19. An entry with no addressing is a no-op: for an entry with `ipv4ll` false and an empty
address, `applyNetConf` returns no error, requests no operation at all (no MTU change, no
link-up, no route) and leaves the world as it is, whatever the MTU and the gateway of the entry
are. -/
theorem no_addressing_is_noop (env : Env σ) (link : Link) (netConf : InterfaceConfig) (w : σ)
    (h4 : netConf.IPV4LL = false) (ha : netConf.Address = "") :
    (applyNetConf env link netConf w).err = none ∧
      (applyNetConf env link netConf w).ops = [] ∧
      (applyNetConf env link netConf w).world = w := by
  rw [applyNetConf_no_address env link netConf w h4 ha]
  exact ⟨rfl, rfl, rfl⟩

theorem no_addressing_is_noop_witness :
    mtuAndGateway.IPV4LL = false ∧ mtuAndGateway.Address = "" ∧
    0 < mtuAndGateway.MTU ∧ mtuAndGateway.Gateway ≠ "" ∧
    ((applyNetConf (testEnv allSucceed) eth0 mtuAndGateway [eth0]).err = none ∧
      (applyNetConf (testEnv allSucceed) eth0 mtuAndGateway [eth0]).ops = [] ∧
      (applyNetConf (testEnv allSucceed) eth0 mtuAndGateway [eth0]).world = [eth0]) :=
  ⟨by decide, by decide, by decide, by decide,
    no_addressing_is_noop (testEnv allSucceed) eth0 mtuAndGateway [eth0] (by decide) (by decide)⟩

/-! ## The link loop -/

/-- The loop body leaves the state as it is for a link with no selected entry. -/
theorem applyMatch_none (env : Env σ) (link : Link) (m : InterfaceConfig) (st : LoopState σ)
    (h : m.Match = "") : applyMatch env link m st = st := by
  simp [applyMatch, h]

/-- The loop body only appends the name of the link to the batch when the selected entry has
`dhcp` true. -/
theorem applyMatch_dhcp (env : Env σ) (link : Link) (m : InterfaceConfig) (st : LoopState σ)
    (h : m.Match ≠ "") (hd : m.DHCP = true) :
    applyMatch env link m st = { st with dhcpLinks := st.dhcpLinks ++ [link.Name] } := by
  simp [applyMatch, h, hd]

/-- The loop body calls `applyNetConf` and stores its result in `err` when the selected entry has
`dhcp` false. -/
theorem applyMatch_static (env : Env σ) (link : Link) (m : InterfaceConfig) (st : LoopState σ)
    (h : m.Match ≠ "") (hd : m.DHCP = false) :
    applyMatch env link m st =
      ⟨(applyNetConf env link m st.world).err, st.dhcpLinks,
        st.ops ++ (applyNetConf env link m st.world).ops,
        (applyNetConf env link m st.world).world⟩ := by
  simp [applyMatch, h, hd]

/-- The loop body does not read `err`: from a state with another `err` it requests the same
operations, and reaches the same batch and the same world. -/
theorem applyMatch_err (env : Env σ) (link : Link) (m : InterfaceConfig) (st : LoopState σ)
    (e : Option Error) :
    ∃ e1, applyMatch env link m { st with err := e } =
      { applyMatch env link m st with err := e1 } := by
  by_cases h : m.Match = ""
  · exact ⟨e, by simp [applyMatch, h]⟩
  · by_cases hd : m.DHCP = true
    · exact ⟨e, by simp [applyMatch, h, hd]⟩
    · exact ⟨(applyNetConf env link m st.world).err, by simp [applyMatch, h, hd]⟩

/-- One turn of the loop: the resolution of the first link succeeds and the loop goes on from the
state the loop body leaves. -/
theorem linkLoop_cons_ok {env : Env σ}
    {iter : Nat → List (String × InterfaceConfig) → List (String × InterfaceConfig)}
    {netCfg : NetworkConfig} {k : Nat} {link : Link} {links : List Link} {st st1 : LoopState σ}
    (h : linkLoop env iter netCfg k (link :: links) st = .ok st1) :
    ∃ m, resolve env link (iter k netCfg.Interfaces) = .ok m ∧
      linkLoop env iter netCfg (k + 1) links (applyMatch env link m st) = .ok st1 := by
  unfold linkLoop at h
  split at h
  · cases h
  · rename_i m hm
    exact ⟨m, hm, h⟩

/-- The loop over a concatenation is the loop over the first part followed by the loop over the
second. -/
theorem linkLoop_append (env : Env σ)
    (iter : Nat → List (String × InterfaceConfig) → List (String × InterfaceConfig))
    (netCfg : NetworkConfig) :
    ∀ (l1 l2 : List Link) (k : Nat) (st st2 : LoopState σ),
      linkLoop env iter netCfg k (l1 ++ l2) st = .ok st2 ↔
        ∃ s1, linkLoop env iter netCfg k l1 st = .ok s1 ∧
          linkLoop env iter netCfg (k + l1.length) l2 s1 = .ok st2 := by
  intro l1
  induction l1 with
  | nil =>
    intro l2 k st st2
    simp [linkLoop]
  | cons link links ih =>
    intro l2 k st st2
    have hk : k + (link :: links).length = k + 1 + links.length := by
      simp only [List.length_cons]; omega
    rw [hk]
    cases hr : resolve env link (iter k netCfg.Interfaces) with
    | error err => simp [linkLoop, hr]
    | ok m => simp [linkLoop, hr, ih]

/-- The batch after the loop is the batch before it followed by the names of the links whose
selected entry has `dhcp` true, in inventory order. -/
theorem linkLoop_dhcpLinks (env : Env σ)
    (iter : Nat → List (String × InterfaceConfig) → List (String × InterfaceConfig))
    (netCfg : NetworkConfig) :
    ∀ (links : List Link) (k : Nat) (st st1 : LoopState σ),
      linkLoop env iter netCfg k links st = .ok st1 →
      st1.dhcpLinks = st.dhcpLinks ++ dhcpNames env iter netCfg k links := by
  intro links
  induction links with
  | nil =>
    intro k st st1 h
    simp only [linkLoop, Except.ok.injEq] at h
    simp [dhcpNames, h]
  | cons link links ih =>
    intro k st st1 h
    obtain ⟨m, hm, h1⟩ := linkLoop_cons_ok h
    rw [ih (k + 1) _ st1 h1]
    by_cases h0 : m.Match = ""
    · simp [dhcpNames, onDHCP, hm, h0, applyMatch_none]
    · by_cases hd : m.DHCP = true
      · simp [dhcpNames, onDHCP, hm, h0, hd, applyMatch_dhcp]
      · simp only [Bool.not_eq_true] at hd
        simp [dhcpNames, onDHCP, hm, h0, hd, applyMatch_static]

/-- No request of `applyNetConf` runs the DHCP client. -/
theorem applyNetConf_no_dhcpcd (env : Env σ) (link : Link) (netConf : InterfaceConfig) (w : σ) :
    ∀ op ∈ (applyNetConf env link netConf w).ops, isDhcpcd op = false := by
  have hsteps : ∀ w1, ∀ op ∈ (applyNetConfSteps env link netConf w1).ops, isDhcpcd op = false := by
    intro w1 op hmem
    rcases steps_ops_kinds env link netConf w1 op hmem with h | h | ⟨gw, h⟩ <;> rw [h] <;> rfl
  intro op h
  by_cases h4 : netConf.IPV4LL = true
  · rcases applyNetConf_ipv4ll env link netConf w h4 with h1 | h1 <;> rw [h1] at h
    · simp only [List.mem_singleton] at h
      rw [h]; rfl
    · rcases List.mem_cons.mp h with h2 | h2
      · rw [h2]; rfl
      · exact hsteps _ op h2
  · simp only [Bool.not_eq_true] at h4
    by_cases ha : netConf.Address = ""
    · rw [applyNetConf_no_address env link netConf w h4 ha] at h
      simp at h
    · cases hp : env.ParseAddr netConf.Address with
      | error err =>
        have : applyNetConf env link netConf w = ⟨some err, [], w⟩ := by
          simp [applyNetConf, h4, ha, hp]
        rw [this] at h
        simp at h
      | ok addr =>
        rw [applyNetConf_of_first env link netConf w _ (Or.inr ⟨h4, ha, addr, hp, rfl⟩)] at h
        rcases List.mem_cons.mp h with h2 | h2
        · rw [h2]; rfl
        · exact hsteps _ op h2

/-- The loop only appends requests, and none of them runs the DHCP client. -/
theorem linkLoop_ops (env : Env σ)
    (iter : Nat → List (String × InterfaceConfig) → List (String × InterfaceConfig))
    (netCfg : NetworkConfig) :
    ∀ (links : List Link) (k : Nat) (st st1 : LoopState σ),
      linkLoop env iter netCfg k links st = .ok st1 →
      ∃ more, st1.ops = st.ops ++ more ∧ ∀ op ∈ more, isDhcpcd op = false := by
  intro links
  induction links with
  | nil =>
    intro k st st1 h
    simp only [linkLoop, Except.ok.injEq] at h
    exact ⟨[], by simp [h], by simp⟩
  | cons link links ih =>
    intro k st st1 h
    obtain ⟨m, hm, h1⟩ := linkLoop_cons_ok h
    obtain ⟨more, hops, hno⟩ := ih (k + 1) _ st1 h1
    by_cases h0 : m.Match = ""
    · rw [applyMatch_none env link m st h0] at hops
      exact ⟨more, hops, hno⟩
    · by_cases hd : m.DHCP = true
      · rw [applyMatch_dhcp env link m st h0 hd] at hops
        exact ⟨more, hops, hno⟩
      · simp only [Bool.not_eq_true] at hd
        rw [applyMatch_static env link m st h0 hd] at hops
        refine ⟨(applyNetConf env link m st.world).ops ++ more, by simp [hops], ?_⟩
        intro op hmem
        rcases List.mem_append.mp hmem with h2 | h2
        · exact applyNetConf_no_dhcpcd env link m st.world op h2
        · exact hno op h2

/-- The loop does not read `err`: started with another `err` it ends alike, with the same
requests, the same batch and the same world. -/
theorem linkLoop_err (env : Env σ)
    (iter : Nat → List (String × InterfaceConfig) → List (String × InterfaceConfig))
    (netCfg : NetworkConfig) :
    ∀ (links : List Link) (k : Nat) (st st1 : LoopState σ) (e : Option Error),
      linkLoop env iter netCfg k links st = .ok st1 →
      ∃ e1, linkLoop env iter netCfg k links { st with err := e } =
        .ok { st1 with err := e1 } := by
  intro links
  induction links with
  | nil =>
    intro k st st1 e h
    simp only [linkLoop, Except.ok.injEq] at h
    subst h
    exact ⟨e, rfl⟩
  | cons link links ih =>
    intro k st st1 e h
    obtain ⟨m, hm, h1⟩ := linkLoop_cons_ok h
    obtain ⟨e1, he1⟩ := applyMatch_err env link m st e
    obtain ⟨e2, he2⟩ := ih (k + 1) _ st1 e1 h1
    refine ⟨e2, ?_⟩
    simp only [linkLoop, hm, he1]
    exact he2

/-- Over links none of which has a selected entry with `dhcp` false, the loop requests nothing
and leaves `err` and the world as they are. -/
theorem linkLoop_noneStatic (env : Env σ)
    (iter : Nat → List (String × InterfaceConfig) → List (String × InterfaceConfig))
    (netCfg : NetworkConfig) :
    ∀ (links : List Link) (k : Nat) (st st1 : LoopState σ),
      noneStatic env iter netCfg k links = true →
      linkLoop env iter netCfg k links st = .ok st1 →
      st1.err = st.err ∧ st1.ops = st.ops ∧ st1.world = st.world := by
  intro links
  induction links with
  | nil =>
    intro k st st1 _ h
    simp only [linkLoop, Except.ok.injEq] at h
    subst h
    exact ⟨rfl, rfl, rfl⟩
  | cons link links ih =>
    intro k st st1 hn h
    obtain ⟨m, hm, h1⟩ := linkLoop_cons_ok h
    simp only [noneStatic, onStatic, hm, Bool.and_eq_true, Bool.not_eq_true',
      Bool.and_eq_false_imp, decide_eq_true_eq, Bool.not_eq_false'] at hn
    obtain ⟨hfirst, hrest⟩ := hn
    obtain ⟨he, ho, hw⟩ := ih (k + 1) _ st1 hrest h1
    by_cases h0 : m.Match = ""
    · rw [applyMatch_none env link m st h0] at he ho hw
      exact ⟨he, ho, hw⟩
    · rw [applyMatch_dhcp env link m st h0 (hfirst h0)] at he ho hw
      exact ⟨he, ho, hw⟩

/-- No request of `runScript` runs the DHCP client. -/
theorem runScript_no_dhcpcd (env : Env σ) (netCfg : NetworkConfig) (w : σ) :
    ∀ op ∈ (runScript env netCfg w).ops, isDhcpcd op = false := by
  intro op h
  have hstat : isDhcpcd (.stat CONF) = false := rfl
  have hmk : isDhcpcd (.mkdirAll CONF 0o700) = false := rfl
  have hwr : isDhcpcd (.writeFile NET_SCRIPT netCfg.Script 0o700) = false := rfl
  have hcmd : isDhcpcd (.command NET_SCRIPT []) = false := by decide
  by_cases hs : netCfg.Script = ""
  · simp [runScript, hs] at h
  · by_cases hn : env.IsNotExist (env.exec (.stat CONF) w).1 = true
    · cases hm : (env.exec (.mkdirAll CONF 0o700) (env.exec (.stat CONF) w).2).1 with
      | some err =>
        simp [runScript, hs, hn, hm] at h
        rcases h with h | h <;> rw [h] <;> assumption
      | none =>
        cases hw : (env.exec (.writeFile NET_SCRIPT netCfg.Script 0o700)
            (env.exec (.mkdirAll CONF 0o700) (env.exec (.stat CONF) w).2).2).1 with
        | some err =>
          simp [runScript, hs, hn, hm, hw] at h
          rcases h with h | h | h <;> rw [h] <;> assumption
        | none =>
          simp [runScript, hs, hn, hm, hw] at h
          rcases h with h | h | h | h <;> rw [h] <;> assumption
    · cases hw : (env.exec (.writeFile NET_SCRIPT netCfg.Script 0o700)
          (env.exec (.stat CONF) w).2).1 with
      | some err =>
        simp [runScript, hs, hn, hw] at h
        rcases h with h | h <;> rw [h] <;> assumption
      | none =>
        simp [runScript, hs, hn, hw] at h
        rcases h with h | h | h <;> rw [h] <;> assumption

/-- No request of `createInterfaces` runs the DHCP client. -/
theorem createInterfaces_no_dhcpcd (env : Env σ) :
    ∀ (scan : List (String × InterfaceConfig)) (w : σ),
      ∀ op ∈ (createInterfaces env scan w).ops, isDhcpcd op = false := by
  intro scan
  induction scan with
  | nil => intro w op h; simp [createInterfaces] at h
  | cons kv rest ih =>
    intro w op h
    obtain ⟨name, iface⟩ := kv
    by_cases hb : iface.Bridge = true
    · simp only [createInterfaces, hb, if_true, List.mem_cons] at h
      rcases h with h | h
      · rw [h]; rfl
      · exact ih _ op h
    · simp only [createInterfaces, hb] at h
      exact ih _ op h

/-- The run when the inventory is read and the loop ends: the result is the `err` the loop
leaves, and the requests are those of the loop followed by those of the DHCP dispatch. -/
theorem ApplyNetworkConfigs_of_loop (env : Env σ)
    (iter : Nat → List (String × InterfaceConfig) → List (String × InterfaceConfig))
    (netCfg : NetworkConfig) (w : σ) (links : List Link) (st : LoopState σ)
    (hlinks : env.LinkList (loopStart env iter netCfg w).world = .ok links)
    (hloop : linkLoop env iter netCfg 1 links (loopStart env iter netCfg w) = .ok st) :
    ApplyNetworkConfigs env iter netCfg w =
      ⟨st.err, st.ops ++ (runDHCP env st.dhcpLinks st.world).ops,
        (runDHCP env st.dhcpLinks st.world).world⟩ := by
  simp only [loopStart] at hlinks hloop
  simp [ApplyNetworkConfigs, createInterfaces_err, hlinks, hloop]

/-- The requests of the DHCP dispatch. -/
theorem runDHCP_ops (env : Env σ) (dhcpLinks : List String) (w : σ) :
    (runDHCP env dhcpLinks w).ops =
      if dhcpLinks = [] then []
      else [.command "dhcpcd" (["-MA4", "-e", "force_hostname=true"] ++ dhcpLinks)] := by
  cases dhcpLinks with
  | nil => simp [runDHCP]
  | cons a l => simp [runDHCP]

/-- What the loop body does for a link, from any state: it appends the requests for the link to
the requests and the name of the link, if it is on DHCP, to the batch. -/
theorem applyMatch_requests (env : Env σ) (link : Link) (m : InterfaceConfig)
    (s : LoopState σ) :
    (applyMatch env link m s).ops = s.ops ++ requestsFor env link m s.world ∧
      (applyMatch env link m s).dhcpLinks = s.dhcpLinks ++ batchFor link m := by
  by_cases h0 : m.Match = ""
  · simp [applyMatch, requestsFor, batchFor, h0]
  · by_cases hd : m.DHCP = true
    · simp [applyMatch, requestsFor, batchFor, h0, hd]
    · simp [applyMatch, requestsFor, batchFor, h0, hd]

/-- A resolution that fails ends the loop at once, in the state reached before the link. -/
theorem linkLoop_abort (env : Env σ)
    (iter : Nat → List (String × InterfaceConfig) → List (String × InterfaceConfig))
    (netCfg : NetworkConfig) :
    ∀ (pre : List Link) (link : Link) (post : List Link) (k : Nat) (st s1 : LoopState σ)
      (err : Error),
      linkLoop env iter netCfg k pre st = .ok s1 →
      resolve env link (iter (k + pre.length) netCfg.Interfaces) = .error err →
      linkLoop env iter netCfg k (pre ++ link :: post) st = .error (err, s1) := by
  intro pre
  induction pre with
  | nil =>
    intro link post k st s1 err hpre hres
    simp only [linkLoop, Except.ok.injEq] at hpre
    subst hpre
    simp only [List.length_nil, Nat.add_zero] at hres
    simp [linkLoop, hres]
  | cons l pre ih =>
    intro link post k st s1 err hpre hres
    obtain ⟨m, hm, h1⟩ := linkLoop_cons_ok hpre
    have hk : k + (l :: pre).length = k + 1 + pre.length := by
      simp only [List.length_cons]; omega
    rw [hk] at hres
    have := ih link post (k + 1) _ s1 err h1 hres
    simp [linkLoop, hm, this]

/-- When every resolution succeeds the loop runs its body on every link. -/
theorem linkLoop_attemptAll (env : Env σ)
    (iter : Nat → List (String × InterfaceConfig) → List (String × InterfaceConfig))
    (netCfg : NetworkConfig)
    (hres : ∀ link k, ∃ m, resolve env link (iter k netCfg.Interfaces) = .ok m) :
    ∀ (links : List Link) (k : Nat) (st : LoopState σ),
      linkLoop env iter netCfg k links st = .ok (attemptAll env iter netCfg k links st) := by
  intro links
  induction links with
  | nil => intro k st; rfl
  | cons link links ih =>
    intro k st
    obtain ⟨m, hm⟩ := hres link k
    simp [linkLoop, attemptAll, resolved, hm, ih]

/-- The requests made before the link loop and in it do not run the DHCP client. -/
theorem loop_no_dhcpcd (env : Env σ)
    (iter : Nat → List (String × InterfaceConfig) → List (String × InterfaceConfig))
    (netCfg : NetworkConfig) (w : σ) (links : List Link) (st : LoopState σ)
    (hloop : linkLoop env iter netCfg 1 links (loopStart env iter netCfg w) = .ok st) :
    ∀ op ∈ st.ops, isDhcpcd op = false := by
  obtain ⟨more, hops, hno⟩ := linkLoop_ops env iter netCfg links 1 _ st hloop
  intro op hmem
  rw [hops] at hmem
  simp only [loopStart, List.mem_append] at hmem
  rcases hmem with (h | h) | h
  · exact runScript_no_dhcpcd env netCfg w op h
  · exact createInterfaces_no_dhcpcd env _ _ op h
  · exact hno op h

/-- C12. A per-link failure does not disturb other links. For every link of the inventory,
wherever it stands and whatever `applyNetConf` returned on the links before it (no assumption is
made on the `err` the loop holds when it reaches the link): the links before it are processed,
the link is resolved to the entry `resolve` returns for it and its scan, its requests (those of
`applyNetConf` on that entry in the world then reached, or none) are made right after the
requests of the earlier links, its name is added to the DHCP batch exactly when the entry is on
DHCP, and the loop goes on to the later links. The loop body does the same from the state with
any other `err`. -/
theorem failure_does_not_disturb_other_links (env : Env σ)
    (iter : Nat → List (String × InterfaceConfig) → List (String × InterfaceConfig))
    (netCfg : NetworkConfig) (pre post : List Link) (link : Link) (k : Nat)
    (st st1 : LoopState σ)
    (hloop : linkLoop env iter netCfg k (pre ++ link :: post) st = .ok st1) :
    ∃ s1 m,
      linkLoop env iter netCfg k pre st = .ok s1 ∧
      resolve env link (iter (k + pre.length) netCfg.Interfaces) = .ok m ∧
      linkLoop env iter netCfg (k + pre.length + 1) post (applyMatch env link m s1) = .ok st1 ∧
      (∃ later, st1.ops = s1.ops ++ requestsFor env link m s1.world ++ later) ∧
      (∃ later, st1.dhcpLinks = s1.dhcpLinks ++ batchFor link m ++ later) ∧
      (∀ e : Option Error,
        (applyMatch env link m { s1 with err := e }).ops =
            s1.ops ++ requestsFor env link m s1.world ∧
          (applyMatch env link m { s1 with err := e }).dhcpLinks =
            s1.dhcpLinks ++ batchFor link m ∧
          (applyMatch env link m { s1 with err := e }).world =
            (applyMatch env link m s1).world) := by
  obtain ⟨s1, hpre, hrest⟩ :=
    (linkLoop_append env iter netCfg pre (link :: post) k st st1).mp hloop
  obtain ⟨m, hm, hpost⟩ := linkLoop_cons_ok hrest
  obtain ⟨hops, hbatch⟩ := applyMatch_requests env link m s1
  refine ⟨s1, m, hpre, hm, hpost, ?_, ?_, ?_⟩
  · obtain ⟨more, hmore, _⟩ := linkLoop_ops env iter netCfg post _ _ st1 hpost
    exact ⟨more, by rw [hmore, hops]⟩
  · have := linkLoop_dhcpLinks env iter netCfg post _ _ st1 hpost
    exact ⟨_, by rw [this, hbatch]⟩
  · intro e
    obtain ⟨e1, he1⟩ := applyMatch_err env link m s1 e
    rw [he1]
    exact ⟨hops, hbatch, rfl⟩

theorem failure_does_not_disturb_other_links_witness :
    linkLoop (testEnv allSucceed) listed firstLinkFails 1 ([eth0] ++ eth1 :: [])
        ⟨none, [], [], [eth0, eth1]⟩ =
      .ok ⟨none, [],
        [.addrAdd eth0 addr5, .linkSetUp eth0, .addrAdd eth1 addr6, .linkSetUp eth1],
        [eth0, eth1]⟩ ∧
    linkLoop (testEnv allSucceed) listed firstLinkFails 1 [eth0] ⟨none, [], [], [eth0, eth1]⟩ =
      .ok ⟨some "Invalid gateway address not-an-ip", [],
        [.addrAdd eth0 addr5, .linkSetUp eth0], [eth0, eth1]⟩ ∧
    requestsFor (testEnv allSucceed) eth1 { Match := "eth1", Address := "10.0.0.6/24" }
        [eth0, eth1] = [.addrAdd eth1 addr6, .linkSetUp eth1] ∧
    ∃ s1 m,
      linkLoop (testEnv allSucceed) listed firstLinkFails 1 [eth0]
        ⟨none, [], [], [eth0, eth1]⟩ = .ok s1 ∧
      resolve (testEnv allSucceed) eth1
        (listed (1 + [eth0].length) firstLinkFails.Interfaces) = .ok m ∧
      linkLoop (testEnv allSucceed) listed firstLinkFails (1 + [eth0].length + 1) []
          (applyMatch (testEnv allSucceed) eth1 m s1) =
        .ok ⟨none, [],
          [.addrAdd eth0 addr5, .linkSetUp eth0, .addrAdd eth1 addr6, .linkSetUp eth1],
          [eth0, eth1]⟩ ∧
      (∃ later, [Op.addrAdd eth0 addr5, .linkSetUp eth0, .addrAdd eth1 addr6, .linkSetUp eth1] =
        s1.ops ++ requestsFor (testEnv allSucceed) eth1 m s1.world ++ later) ∧
      (∃ later, ([] : List String) = s1.dhcpLinks ++ batchFor eth1 m ++ later) ∧
      (∀ e : Option Error,
        (applyMatch (testEnv allSucceed) eth1 m { s1 with err := e }).ops =
            s1.ops ++ requestsFor (testEnv allSucceed) eth1 m s1.world ∧
          (applyMatch (testEnv allSucceed) eth1 m { s1 with err := e }).dhcpLinks =
            s1.dhcpLinks ++ batchFor eth1 m ∧
          (applyMatch (testEnv allSucceed) eth1 m { s1 with err := e }).world =
            (applyMatch (testEnv allSucceed) eth1 m s1).world) :=
  ⟨rfl, rfl, by decide,
    failure_does_not_disturb_other_links (testEnv allSucceed) listed firstLinkFails [eth0] []
      eth1 1 ⟨none, [], [], [eth0, eth1]⟩
      ⟨none, [],
        [.addrAdd eth0 addr5, .linkSetUp eth0, .addrAdd eth1 addr6, .linkSetUp eth1],
        [eth0, eth1]⟩ rfl⟩

/-- C13. The DHCP client is invoked once with the whole batch: when the inventory is read and no
resolution fails, no request made up to the end of the link loop runs the DHCP client, and the
requests of `ApplyNetworkConfigs` are those, followed by nothing when no link has a selected
entry with `dhcp` true, and otherwise by one run of `dhcpcd` whose arguments are `-MA4`, `-e`,
`force_hostname=true` and then the names of all links whose selected entry has `dhcp` true, in
inventory order; so the number of runs of the DHCP client is one or zero accordingly. -/
theorem dhcp_client_invoked_once (env : Env σ)
    (iter : Nat → List (String × InterfaceConfig) → List (String × InterfaceConfig))
    (netCfg : NetworkConfig) (w : σ) (links : List Link) (st : LoopState σ)
    (hlinks : env.LinkList (loopStart env iter netCfg w).world = .ok links)
    (hloop : linkLoop env iter netCfg 1 links (loopStart env iter netCfg w) = .ok st) :
    (∀ op ∈ st.ops, isDhcpcd op = false) ∧
      (ApplyNetworkConfigs env iter netCfg w).ops =
        st.ops ++
          (if dhcpNames env iter netCfg 1 links = [] then []
            else [.command "dhcpcd"
              (["-MA4", "-e", "force_hostname=true"] ++ dhcpNames env iter netCfg 1 links)]) ∧
      ((ApplyNetworkConfigs env iter netCfg w).ops.filter isDhcpcd).length =
        (if dhcpNames env iter netCfg 1 links = [] then 0 else 1) := by
  have hbatch : st.dhcpLinks = dhcpNames env iter netCfg 1 links := by
    have := linkLoop_dhcpLinks env iter netCfg links 1 _ st hloop
    simpa [loopStart] using this
  have hclean : ∀ op ∈ st.ops, isDhcpcd op = false := by
    obtain ⟨more, hops, hno⟩ := linkLoop_ops env iter netCfg links 1 _ st hloop
    intro op hmem
    rw [hops] at hmem
    simp only [loopStart, List.mem_append] at hmem
    rcases hmem with (h | h) | h
    · exact runScript_no_dhcpcd env netCfg w op h
    · exact createInterfaces_no_dhcpcd env _ _ op h
    · exact hno op h
  have hfilter : st.ops.filter isDhcpcd = [] := by
    rw [List.filter_eq_nil_iff]
    intro op hmem
    rw [hclean op hmem]
    simp
  have hops : (ApplyNetworkConfigs env iter netCfg w).ops =
      st.ops ++
        (if dhcpNames env iter netCfg 1 links = [] then []
          else [.command "dhcpcd"
            (["-MA4", "-e", "force_hostname=true"] ++ dhcpNames env iter netCfg 1 links)]) := by
    rw [ApplyNetworkConfigs_of_loop env iter netCfg w links st hlinks hloop]
    show st.ops ++ (runDHCP env st.dhcpLinks st.world).ops = _
    rw [runDHCP_ops, hbatch]
  refine ⟨hclean, hops, ?_⟩
  rw [hops, List.filter_append, hfilter]
  by_cases hn : dhcpNames env iter netCfg 1 links = []
  · simp [hn]
  · simp [hn, isDhcpcd]

theorem dhcp_client_invoked_once_witness :
    (testEnv allSucceed).LinkList (loopStart (testEnv allSucceed) listed lanOnDHCP
      [eth0, eth1, wlan0]).world = .ok [eth0, eth1, wlan0] ∧
    linkLoop (testEnv allSucceed) listed lanOnDHCP 1 [eth0, eth1, wlan0]
      (loopStart (testEnv allSucceed) listed lanOnDHCP [eth0, eth1, wlan0]) =
        .ok ⟨none, ["eth0", "eth1"], [], [eth0, eth1, wlan0]⟩ ∧
    dhcpNames (testEnv allSucceed) listed lanOnDHCP 1 [eth0, eth1, wlan0] = ["eth0", "eth1"] ∧
    (ApplyNetworkConfigs (testEnv allSucceed) listed lanOnDHCP [eth0, eth1, wlan0]).ops =
      [.command "dhcpcd" ["-MA4", "-e", "force_hostname=true", "eth0", "eth1"]] ∧
    ((∀ op ∈ ([] : List Op), isDhcpcd op = false) ∧
      (ApplyNetworkConfigs (testEnv allSucceed) listed lanOnDHCP [eth0, eth1, wlan0]).ops =
        [] ++
          (if dhcpNames (testEnv allSucceed) listed lanOnDHCP 1 [eth0, eth1, wlan0] = [] then []
            else [.command "dhcpcd" (["-MA4", "-e", "force_hostname=true"] ++
              dhcpNames (testEnv allSucceed) listed lanOnDHCP 1 [eth0, eth1, wlan0])]) ∧
      ((ApplyNetworkConfigs (testEnv allSucceed) listed lanOnDHCP
          [eth0, eth1, wlan0]).ops.filter isDhcpcd).length =
        (if dhcpNames (testEnv allSucceed) listed lanOnDHCP 1 [eth0, eth1, wlan0] = [] then 0
          else 1)) :=
  ⟨rfl, rfl, by decide, by decide,
    dhcp_client_invoked_once (testEnv allSucceed) listed lanOnDHCP [eth0, eth1, wlan0]
      [eth0, eth1, wlan0] ⟨none, ["eth0", "eth1"], [], [eth0, eth1, wlan0]⟩ rfl rfl⟩

/-- C14. DHCP-resolved links get no static processing: for a link of the inventory whose
selected entry has `dhcp` true, whatever the address, `ipv4ll`, MTU and gateway of the entry, the
loop body requests nothing and only appends the name of the link to the DHCP batch; the loop
goes from the state reached before the link to the loop over the links after it with nothing but
that name added, so no address, MTU, link-up or route request is made for the link; and its name
is in the batch at the end of the loop, which is the tail of the argument list of the DHCP
client. -/
theorem dhcp_links_get_no_static_processing (env : Env σ)
    (iter : Nat → List (String × InterfaceConfig) → List (String × InterfaceConfig))
    (netCfg : NetworkConfig) (pre post : List Link) (link : Link) (k : Nat)
    (st st1 : LoopState σ) (m : InterfaceConfig)
    (hloop : linkLoop env iter netCfg k (pre ++ link :: post) st = .ok st1)
    (hres : resolve env link (iter (k + pre.length) netCfg.Interfaces) = .ok m)
    (hsel : selected m = some m) (hd : m.DHCP = true) :
    (∀ s : LoopState σ,
      applyMatch env link m s = { s with dhcpLinks := s.dhcpLinks ++ [link.Name] }) ∧
      (∃ s1, linkLoop env iter netCfg k pre st = .ok s1 ∧
        linkLoop env iter netCfg (k + pre.length + 1) post
          { s1 with dhcpLinks := s1.dhcpLinks ++ [link.Name] } = .ok st1) ∧
      link.Name ∈ st1.dhcpLinks ∧
      (runDHCP env st1.dhcpLinks st1.world).ops =
        [.command "dhcpcd" (["-MA4", "-e", "force_hostname=true"] ++ st1.dhcpLinks)] := by
  have hne : m.Match ≠ "" := by
    intro h0
    rw [selected_eq_none h0] at hsel
    cases hsel
  have hbody : ∀ s : LoopState σ,
      applyMatch env link m s = { s with dhcpLinks := s.dhcpLinks ++ [link.Name] } :=
    fun s => applyMatch_dhcp env link m s hne hd
  obtain ⟨s1, hpre, hrest⟩ := (linkLoop_append env iter netCfg pre (link :: post) k st st1).mp hloop
  obtain ⟨m1, hm1, hpost⟩ := linkLoop_cons_ok hrest
  rw [hres] at hm1
  simp only [Except.ok.injEq] at hm1
  subst hm1
  rw [hbody s1] at hpost
  have hmem : link.Name ∈ st1.dhcpLinks := by
    rw [linkLoop_dhcpLinks env iter netCfg post _ _ st1 hpost]
    simp
  refine ⟨hbody, ⟨s1, hpre, hpost⟩, hmem, ?_⟩
  rw [runDHCP_ops]
  have : st1.dhcpLinks ≠ [] := fun h => by rw [h] at hmem; cases hmem
  simp [this]

theorem dhcp_links_get_no_static_processing_witness :
    linkLoop (testEnv allSucceed) listed { Interfaces := [("lan", dhcpWithStatic)] } 1
      ([] ++ eth0 :: [wlan0]) ⟨none, [], [], [eth0, wlan0]⟩ =
        .ok ⟨none, ["eth0"], [], [eth0, wlan0]⟩ ∧
    resolve (testEnv allSucceed) eth0
      (listed (1 + ([] : List Link).length)
        ({ Interfaces := [("lan", dhcpWithStatic)] } : NetworkConfig).Interfaces) =
        .ok dhcpWithStatic ∧
    selected dhcpWithStatic = some dhcpWithStatic ∧ dhcpWithStatic.DHCP = true ∧
    ((∀ s : LoopState (List Link),
      applyMatch (testEnv allSucceed) eth0 dhcpWithStatic s =
        { s with dhcpLinks := s.dhcpLinks ++ [eth0.Name] }) ∧
      (∃ s1, linkLoop (testEnv allSucceed) listed { Interfaces := [("lan", dhcpWithStatic)] } 1 []
          ⟨none, [], [], [eth0, wlan0]⟩ = .ok s1 ∧
        linkLoop (testEnv allSucceed) listed { Interfaces := [("lan", dhcpWithStatic)] }
          (1 + ([] : List Link).length + 1) [wlan0]
          { s1 with dhcpLinks := s1.dhcpLinks ++ [eth0.Name] } =
            .ok ⟨none, ["eth0"], [], [eth0, wlan0]⟩) ∧
      eth0.Name ∈ (⟨none, ["eth0"], [], [eth0, wlan0]⟩ : LoopState (List Link)).dhcpLinks ∧
      (runDHCP (testEnv allSucceed) ["eth0"] [eth0, wlan0]).ops =
        [.command "dhcpcd" (["-MA4", "-e", "force_hostname=true"] ++ ["eth0"])]) :=
  ⟨rfl, by decide, by decide, by decide,
    dhcp_links_get_no_static_processing (testEnv allSucceed) listed
      { Interfaces := [("lan", dhcpWithStatic)] } [] [wlan0] eth0 1
      ⟨none, [], [], [eth0, wlan0]⟩ ⟨none, ["eth0"], [], [eth0, wlan0]⟩ dhcpWithStatic
      rfl (by decide) (by decide) (by decide)⟩

/-- The resolver does not depend on the behaviour of the DHCP client. -/
theorem scanEntries_withDhcpcd (env : Env σ) (dhcp : List String → σ → Option Error × σ)
    (link : Link) :
    ∀ (scan : List (String × InterfaceConfig)) (m : InterfaceConfig),
      scanEntries (withDhcpcd env dhcp) link scan m = scanEntries env link scan m := by
  intro scan
  induction scan with
  | nil => intro m; rfl
  | cons kv rest ih =>
    intro m
    obtain ⟨key, netConf⟩ := kv
    have h1 : ∀ e, macStep (withDhcpcd env dhcp) link e = macStep env link e := fun _ => rfl
    have h2 : ∀ e m1, nameStep (withDhcpcd env dhcp) link e m1 = nameStep env link e m1 :=
      fun _ _ => rfl
    simp only [scanEntries, h1, h2, ih]

/-- The steps of lines 163-193 do not depend on the behaviour of the DHCP client. -/
theorem steps_withDhcpcd (env : Env σ) (dhcp : List String → σ → Option Error × σ)
    (link : Link) (netConf : InterfaceConfig) (w : σ) :
    applyNetConfSteps (withDhcpcd env dhcp) link netConf w =
      applyNetConfSteps env link netConf w := by
  simp [applyNetConfSteps, withDhcpcd]

/-- The function `applyNetConf` does not depend on the behaviour of the DHCP client. -/
theorem applyNetConf_withDhcpcd (env : Env σ) (dhcp : List String → σ → Option Error × σ)
    (link : Link) (netConf : InterfaceConfig) (w : σ) :
    applyNetConf (withDhcpcd env dhcp) link netConf w = applyNetConf env link netConf w := by
  have h1 : ∀ w1, (withDhcpcd env dhcp).exec (.assignLinkLocalIP link) w1 =
      env.exec (.assignLinkLocalIP link) w1 := fun _ => rfl
  have h2 : ∀ a w1, (withDhcpcd env dhcp).exec (.addrAdd link a) w1 =
      env.exec (.addrAdd link a) w1 := fun _ _ => rfl
  have h3 : (withDhcpcd env dhcp).ParseAddr = env.ParseAddr := rfl
  simp only [applyNetConf, h1, h2, h3, steps_withDhcpcd]

/-- The link loop does not depend on the behaviour of the DHCP client. -/
theorem linkLoop_withDhcpcd (env : Env σ) (dhcp : List String → σ → Option Error × σ)
    (iter : Nat → List (String × InterfaceConfig) → List (String × InterfaceConfig))
    (netCfg : NetworkConfig) :
    ∀ (links : List Link) (k : Nat) (st : LoopState σ),
      linkLoop (withDhcpcd env dhcp) iter netCfg k links st =
        linkLoop env iter netCfg k links st := by
  intro links
  induction links with
  | nil => intro k st; rfl
  | cons link links ih =>
    intro k st
    have h1 : ∀ m s, applyMatch (withDhcpcd env dhcp) link m s = applyMatch env link m s := by
      intro m s
      simp only [applyMatch, applyNetConf_withDhcpcd]
    simp only [linkLoop, resolve, scanEntries_withDhcpcd, h1, ih]

/-- The function `runScript` does not depend on the behaviour of the DHCP client. -/
theorem runScript_withDhcpcd (env : Env σ) (dhcp : List String → σ → Option Error × σ)
    (netCfg : NetworkConfig) (w : σ) :
    runScript (withDhcpcd env dhcp) netCfg w = runScript env netCfg w := by
  have h1 : ∀ w1, (withDhcpcd env dhcp).exec (.command NET_SCRIPT []) w1 =
      env.exec (.command NET_SCRIPT []) w1 := by
    intro w1
    have : NET_SCRIPT ≠ "dhcpcd" := by decide
    simp [withDhcpcd, this]
  have h2 : ∀ w1, (withDhcpcd env dhcp).exec (.stat CONF) w1 = env.exec (.stat CONF) w1 :=
    fun _ => rfl
  have h3 : ∀ w1, (withDhcpcd env dhcp).exec (.mkdirAll CONF 0o700) w1 =
      env.exec (.mkdirAll CONF 0o700) w1 := fun _ => rfl
  have h4 : ∀ w1, (withDhcpcd env dhcp).exec (.writeFile NET_SCRIPT netCfg.Script 0o700) w1 =
      env.exec (.writeFile NET_SCRIPT netCfg.Script 0o700) w1 := fun _ => rfl
  have h5 : (withDhcpcd env dhcp).IsNotExist = env.IsNotExist := rfl
  simp only [runScript, h1, h2, h3, h4, h5]

/-- The function `createInterfaces` does not depend on the behaviour of the DHCP client. -/
theorem createInterfaces_withDhcpcd (env : Env σ) (dhcp : List String → σ → Option Error × σ) :
    ∀ (scan : List (String × InterfaceConfig)) (w : σ),
      createInterfaces (withDhcpcd env dhcp) scan w = createInterfaces env scan w := by
  intro scan
  induction scan with
  | nil => intro w; rfl
  | cons kv rest ih =>
    intro w
    obtain ⟨name, iface⟩ := kv
    have h1 : ∀ w1, (withDhcpcd env dhcp).exec (.linkAddBridge name) w1 =
        env.exec (.linkAddBridge name) w1 := fun _ => rfl
    simp only [createInterfaces, h1, ih]

/-- The value returned by the run does not depend on the behaviour of the DHCP client. -/
theorem ApplyNetworkConfigs_err_withDhcpcd (env : Env σ)
    (dhcp : List String → σ → Option Error × σ)
    (iter : Nat → List (String × InterfaceConfig) → List (String × InterfaceConfig))
    (netCfg : NetworkConfig) (w : σ) :
    (ApplyNetworkConfigs (withDhcpcd env dhcp) iter netCfg w).err =
      (ApplyNetworkConfigs env iter netCfg w).err := by
  have h1 : (withDhcpcd env dhcp).LinkList = env.LinkList := rfl
  simp only [ApplyNetworkConfigs, runScript_withDhcpcd, createInterfaces_withDhcpcd,
    linkLoop_withDhcpcd, h1, createInterfaces_err]
  cases env.LinkList
      (createInterfaces env (iter 0 netCfg.Interfaces) (runScript env netCfg w).world).world with
  | error err => rfl
  | ok links =>
    simp only
    cases linkLoop env iter netCfg 1 links
        ⟨none, [], (runScript env netCfg w).ops ++
            (createInterfaces env (iter 0 netCfg.Interfaces) (runScript env netCfg w).world).ops,
          (createInterfaces env (iter 0 netCfg.Interfaces) (runScript env netCfg w).world).world⟩ with
    | error es => rfl
    | ok st => rfl

/-- C18. What the run returns: when the inventory is read and no resolution fails, the value
returned by `ApplyNetworkConfigs` is the `err` left by the link loop; it is no error when no link
has a selected entry with `dhcp` false; and when `link` is the last link of the inventory whose
selected entry `m` has `dhcp` false, it is the result of `applyNetConf` on `link` with `m` in the
world the loop reached before `link`, whatever `applyNetConf` returned on the links before. It is
the same whatever the DHCP client does. -/
theorem run_returns_last_static_result (env : Env σ)
    (iter : Nat → List (String × InterfaceConfig) → List (String × InterfaceConfig))
    (netCfg : NetworkConfig) (w : σ) (links : List Link) (st : LoopState σ)
    (hlinks : env.LinkList (loopStart env iter netCfg w).world = .ok links)
    (hloop : linkLoop env iter netCfg 1 links (loopStart env iter netCfg w) = .ok st) :
    (ApplyNetworkConfigs env iter netCfg w).err = st.err ∧
      (noneStatic env iter netCfg 1 links = true →
        (ApplyNetworkConfigs env iter netCfg w).err = none) ∧
      (∀ (pre post : List Link) (link : Link) (m : InterfaceConfig) (s1 : LoopState σ),
        links = pre ++ link :: post →
        linkLoop env iter netCfg 1 pre (loopStart env iter netCfg w) = .ok s1 →
        resolve env link (iter (1 + pre.length) netCfg.Interfaces) = .ok m →
        selected m = some m → m.DHCP = false →
        noneStatic env iter netCfg (1 + pre.length + 1) post = true →
        (ApplyNetworkConfigs env iter netCfg w).err = (applyNetConf env link m s1.world).err) ∧
      (∀ dhcp, (ApplyNetworkConfigs (withDhcpcd env dhcp) iter netCfg w).err =
        (ApplyNetworkConfigs env iter netCfg w).err) := by
  have herr : (ApplyNetworkConfigs env iter netCfg w).err = st.err := by
    rw [ApplyNetworkConfigs_of_loop env iter netCfg w links st hlinks hloop]
  refine ⟨herr, ?_, ?_, fun dhcp => ApplyNetworkConfigs_err_withDhcpcd env dhcp iter netCfg w⟩
  · intro hn
    rw [herr, (linkLoop_noneStatic env iter netCfg links 1 _ st hn hloop).1]
    rfl
  · intro pre post link m s1 hsplit hpre hres hsel hd hn
    have hne : m.Match ≠ "" := by
      intro h0
      rw [selected_eq_none h0] at hsel
      cases hsel
    rw [hsplit] at hloop
    obtain ⟨s2, hpre2, hrest⟩ :=
      (linkLoop_append env iter netCfg pre (link :: post) 1 _ st).mp hloop
    rw [hpre] at hpre2
    simp only [Except.ok.injEq] at hpre2
    subst hpre2
    obtain ⟨m1, hm1, hpost⟩ := linkLoop_cons_ok hrest
    rw [hres] at hm1
    simp only [Except.ok.injEq] at hm1
    subst hm1
    rw [herr, (linkLoop_noneStatic env iter netCfg post _ _ st hn hpost).1,
      applyMatch_static env link m s1 hne hd]

theorem run_returns_last_static_result_witness :
    (testEnv dhcpcdFails).LinkList (loopStart (testEnv dhcpcdFails) listed lastStaticSucceeds
      [eth0, eth1, wlan0]).world = .ok [eth0, eth1, wlan0] ∧
    linkLoop (testEnv dhcpcdFails) listed lastStaticSucceeds 1 [eth0, eth1, wlan0]
      (loopStart (testEnv dhcpcdFails) listed lastStaticSucceeds [eth0, eth1, wlan0]) =
        .ok ⟨none, ["wlan0"],
          [.addrAdd eth0 addr5, .linkSetUp eth0, .addrAdd eth1 addr6, .linkSetUp eth1],
          [eth0, eth1, wlan0]⟩ ∧
    (applyNetConf (testEnv dhcpcdFails) eth0 staticBadGateway [eth0, eth1, wlan0]).err =
      some "Invalid gateway address not-an-ip" ∧
    (applyNetConf (testEnv dhcpcdFails) eth1 { Match := "eth1", Address := "10.0.0.6/24" }
      [eth0, eth1, wlan0]).err = none ∧
    (ApplyNetworkConfigs (testEnv dhcpcdFails) listed lastStaticSucceeds
      [eth0, eth1, wlan0]).err = none ∧
    (∀ (pre post : List Link) (link : Link) (m : InterfaceConfig) (s1 : LoopState (List Link)),
        [eth0, eth1, wlan0] = pre ++ link :: post →
        linkLoop (testEnv dhcpcdFails) listed lastStaticSucceeds 1 pre
          (loopStart (testEnv dhcpcdFails) listed lastStaticSucceeds [eth0, eth1, wlan0]) =
            .ok s1 →
        resolve (testEnv dhcpcdFails) link
          (listed (1 + pre.length) lastStaticSucceeds.Interfaces) = .ok m →
        selected m = some m → m.DHCP = false →
        noneStatic (testEnv dhcpcdFails) listed lastStaticSucceeds (1 + pre.length + 1) post =
          true →
        (ApplyNetworkConfigs (testEnv dhcpcdFails) listed lastStaticSucceeds
          [eth0, eth1, wlan0]).err = (applyNetConf (testEnv dhcpcdFails) link m s1.world).err) :=
  ⟨rfl, rfl, by decide, by decide, by decide,
    (run_returns_last_static_result (testEnv dhcpcdFails) listed lastStaticSucceeds
      [eth0, eth1, wlan0] [eth0, eth1, wlan0]
      ⟨none, ["wlan0"],
        [.addrAdd eth0 addr5, .linkSetUp eth0, .addrAdd eth1 addr6, .linkSetUp eth1],
        [eth0, eth1, wlan0]⟩ rfl rfl).2.2.1⟩

/-! ## MAC form and the pattern matcher -/

/-- C11 fails on the code at this input: the match string `macvlan0`, the name of a link, does not
begin with `mac=`, yet line 92 takes it for a MAC specifier (it is longer than 4 characters and
begins with `mac`; the fourth character is not looked at), line 93 parses `lan0` as a hardware
address and the run returns the error of the parser before any link is configured. Likewise
`macXaa:bb:cc:dd:ee:ff` matches a link by MAC, and `mac=` alone is not of MAC form. -/
theorem mac_prefix_fourth_character_unchecked :
    isMacForm "macvlan0" = true ∧
      resolve (testEnv allSucceed) macvlan0 macvlanByName.Interfaces =
        .error "address lan0: invalid MAC address" ∧
      (ApplyNetworkConfigs (testEnv allSucceed) listed macvlanByName [eth0, macvlan0]).err =
        some "address lan0: invalid MAC address" ∧
      (ApplyNetworkConfigs (testEnv allSucceed) listed macvlanByName [eth0, macvlan0]).ops = [] ∧
      macMatches (testEnv allSucceed) eth0 { Match := "macXaa:bb:cc:dd:ee:ff" } = true ∧
      isMacForm "mac=" = false := by
  decide

/-- A pattern without `*` matches exactly the identical text. -/
theorem globChars_literal :
    ∀ (pattern subj : List Char), '*' ∉ pattern →
      globChars pattern subj = decide (pattern = subj) := by
  intro pattern
  induction pattern with
  | nil =>
    intro subj _
    cases subj <;> simp [globChars]
  | cons c pattern ih =>
    intro subj h
    have hc : c ≠ '*' := fun hc => h (by rw [hc]; exact List.mem_cons_self _ _)
    have hp : '*' ∉ pattern := fun hp => h (List.mem_cons_of_mem _ hp)
    cases subj with
    | nil => simp [globChars, hc]
    | cons d rest => simp [globChars, hc, ih rest hp]

/-- A pattern made of a text without `*` followed by `*` matches every text that begins with
it. -/
theorem globChars_star :
    ∀ (pattern rest : List Char), '*' ∉ pattern →
      globChars (pattern ++ ['*']) (pattern ++ rest) = true := by
  intro pattern
  induction pattern with
  | nil =>
    intro rest _
    simp only [List.nil_append, globChars, if_true, List.any_eq_true]
    exact ⟨[], by simp, by simp [globChars]⟩
  | cons c pattern ih =>
    intro rest h
    have hc : c ≠ '*' := fun hc => h (by rw [hc]; exact List.mem_cons_self _ _)
    have hp : '*' ∉ pattern := fun hp => h (List.mem_cons_of_mem _ hp)
    simp [globChars, hc, ih rest hp]

/-- C17, as stated, fails: with the `*`-only matching of `go-glob` the pattern `eth?` does not
match `eth0`, and a bracketed class does not match a character of the class. -/
theorem question_mark_is_literal_counterexample :
    «matches» (testEnv allSucceed) ("eth" ++ "0") ("eth" ++ "?") = false ∧
      «matches» (testEnv allSucceed) "eth0" "eth?" = false ∧
      «matches» (testEnv allSucceed) "eth0" "eth[0-9]" = false ∧
      «matches» (testEnv allSucceed) "eth?" "eth?" = true := by
  decide

/-- C17, as amended. The pattern matcher is the matcher of the `go-glob` library, with the
pattern as first argument, and its only wildcard is `*`: a pattern without `*` matches exactly
the identical name, so `?` and brackets match only themselves and `matches(s ++ c, s ++ "?")` is
true exactly when `c` is `?`; and `matches(s ++ t, s ++ "*")` is true for every text `t`. -/
theorem matcher_has_only_star_wildcard (env : Env σ) (fails : Op → Option Error)
    (name pattern s t : String) (c : Char)
    (hp : '*' ∉ pattern.data) (hs : '*' ∉ s.data) :
    «matches» env name pattern = env.Glob pattern name ∧
      («matches» (testEnv fails) name pattern = true ↔ name = pattern) ∧
      («matches» (testEnv fails) (s.push c) (s ++ "?") = true ↔ c = '?') ∧
      «matches» (testEnv fails) (s ++ t) (s ++ "*") = true := by
  refine ⟨rfl, ?_, ?_, ?_⟩
  · show globChars pattern.data name.data = true ↔ name = pattern
    rw [globChars_literal pattern.data name.data hp]
    simp only [decide_eq_true_eq]
    constructor
    · intro h; exact (String.ext h).symm
    · intro h; rw [h]
  · show globChars (s ++ "?").data (s.push c).data = true ↔ c = '?'
    have hq : '*' ∉ (s ++ "?").data := by
      rw [String.data_append]
      intro h
      rcases List.mem_append.mp h with h | h
      · exact hs h
      · revert h; decide
    rw [globChars_literal _ _ hq]
    simp only [decide_eq_true_eq, String.data_append, String.data_push]
    constructor
    · intro h
      have := List.append_cancel_left h
      simpa using this.symm
    · intro h
      rw [h]
  · show globChars (s ++ "*").data (s ++ t).data = true
    rw [String.data_append, String.data_append]
    exact globChars_star s.data t.data hs

theorem matcher_has_only_star_wildcard_witness :
    '*' ∉ ("eth?" : String).data ∧ '*' ∉ ("eth" : String).data ∧
    («matches» (testEnv allSucceed) "eth0" "eth?" = (testEnv allSucceed).Glob "eth?" "eth0" ∧
      («matches» (testEnv allSucceed) "eth0" "eth?" = true ↔ "eth0" = "eth?") ∧
      («matches» (testEnv allSucceed) (("eth" : String).push '0') ("eth" ++ "?") = true ↔
        '0' = '?') ∧
      «matches» (testEnv allSucceed) ("eth" ++ "0") ("eth" ++ "*") = true) :=
  ⟨by decide, by decide,
    matcher_has_only_star_wildcard (testEnv allSucceed) allSucceed "eth0" "eth?" "eth" "0" '0'
      (by decide) (by decide)⟩

/-- C5, as amended. Match resolution fails only at an entry the resolver treats as a MAC
specifier whose remainder does not parse as a hardware address, with the error of the parser. A
resolution that fails for a link of the inventory makes `ApplyNetworkConfigs` return that error
from inside the link loop: the requests of the run are those made up to the link before, none of
which runs the DHCP client, and nothing is requested for the link or the links after it. When the
remainder of every such entry of the configuration parses, resolution succeeds for every link
under every scan order, the loop runs its body on every link of the inventory, and the run ends
with the DHCP dispatch for the whole batch. -/
theorem resolution_fails_only_on_unparsable_mac (env : Env σ)
    (iter : Nat → List (String × InterfaceConfig) → List (String × InterfaceConfig))
    (netCfg : NetworkConfig) (w : σ) (links : List Link)
    (hiter : ∀ k, (iter k netCfg.Interfaces).Perm netCfg.Interfaces)
    (hlinks : env.LinkList (loopStart env iter netCfg w).world = .ok links) :
    (∀ link scan err, resolve env link scan = .error err →
        ∃ kv ∈ scan, isMacForm (seen kv).Match = true ∧
          env.ParseMAC ((bytes (seen kv).Match).drop 4) = .error err) ∧
      (∀ (pre post : List Link) (link : Link) (s1 : LoopState σ) (err : Error),
        links = pre ++ link :: post →
        linkLoop env iter netCfg 1 pre (loopStart env iter netCfg w) = .ok s1 →
        resolve env link (iter (1 + pre.length) netCfg.Interfaces) = .error err →
        ApplyNetworkConfigs env iter netCfg w = ⟨some err, s1.ops, s1.world⟩ ∧
          ∀ op ∈ s1.ops, isDhcpcd op = false) ∧
      ((∀ kv ∈ netCfg.Interfaces, macParses env (seen kv) = true) →
        (∀ link scan, scan.Perm netCfg.Interfaces → ∃ m, resolve env link scan = .ok m) ∧
          linkLoop env iter netCfg 1 links (loopStart env iter netCfg w) =
            .ok (attemptAll env iter netCfg 1 links (loopStart env iter netCfg w)) ∧
          (ApplyNetworkConfigs env iter netCfg w).ops =
            (attemptAll env iter netCfg 1 links (loopStart env iter netCfg w)).ops ++
              (if dhcpNames env iter netCfg 1 links = [] then []
                else [.command "dhcpcd" (["-MA4", "-e", "force_hostname=true"] ++
                  dhcpNames env iter netCfg 1 links)])) := by
  refine ⟨fun link scan err h => scanEntries_error scan {} err h, ?_, ?_⟩
  · intro pre post link s1 err hsplit hpre hres
    have habort := linkLoop_abort env iter netCfg pre link post 1 _ s1 err hpre hres
    rw [← hsplit] at habort
    constructor
    · simp only [loopStart] at hlinks habort
      simp [ApplyNetworkConfigs, createInterfaces_err, hlinks, habort]
    · exact loop_no_dhcpcd env iter netCfg w pre s1 hpre
  · intro hparse
    have hok : ∀ link scan, scan.Perm netCfg.Interfaces →
        ∃ m, resolve env link scan = .ok m := by
      intro link scan hs
      exact scanEntries_ok link scan {} (fun kv hmem => hparse kv (hs.mem_iff.mp hmem))
    have hloop := linkLoop_attemptAll env iter netCfg (fun link k => hok link _ (hiter k)) links 1
      (loopStart env iter netCfg w)
    refine ⟨hok, hloop, ?_⟩
    rw [ApplyNetworkConfigs_of_loop env iter netCfg w links _ hlinks hloop]
    show _ ++ (runDHCP env _ _).ops = _
    rw [runDHCP_ops, linkLoop_dhcpLinks env iter netCfg links 1 _ _ hloop]
    simp [loopStart]

theorem resolution_fails_only_on_unparsable_mac_witness :
    (∀ k, (listed k macConfig.Interfaces).Perm macConfig.Interfaces) ∧
    (testEnv allSucceed).LinkList
      (loopStart (testEnv allSucceed) listed macConfig [eth0, eth1]).world = .ok [eth0, eth1] ∧
    (∀ kv ∈ macConfig.Interfaces, macParses (testEnv allSucceed) (seen kv) = true) ∧
    (∃ kv ∈ macConfig.Interfaces, isMacForm (seen kv).Match = true) ∧
    (ApplyNetworkConfigs (testEnv allSucceed) listed macConfig [eth0, eth1]).ops =
      [.command "dhcpcd" ["-MA4", "-e", "force_hostname=true", "eth1"]] ∧
    ((∀ link scan, scan.Perm macConfig.Interfaces →
        ∃ m, resolve (testEnv allSucceed) link scan = .ok m) ∧
      linkLoop (testEnv allSucceed) listed macConfig 1 [eth0, eth1]
          (loopStart (testEnv allSucceed) listed macConfig [eth0, eth1]) =
        .ok (attemptAll (testEnv allSucceed) listed macConfig 1 [eth0, eth1]
          (loopStart (testEnv allSucceed) listed macConfig [eth0, eth1])) ∧
      (ApplyNetworkConfigs (testEnv allSucceed) listed macConfig [eth0, eth1]).ops =
        (attemptAll (testEnv allSucceed) listed macConfig 1 [eth0, eth1]
            (loopStart (testEnv allSucceed) listed macConfig [eth0, eth1])).ops ++
          (if dhcpNames (testEnv allSucceed) listed macConfig 1 [eth0, eth1] = [] then []
            else [.command "dhcpcd" (["-MA4", "-e", "force_hostname=true"] ++
              dhcpNames (testEnv allSucceed) listed macConfig 1 [eth0, eth1])])) ∧
    (ApplyNetworkConfigs (testEnv allSucceed) listed unparsableMac [eth0, eth1] =
        ⟨some "address zz: invalid MAC address", [], [eth0, eth1]⟩ ∧
      ∀ op ∈ ([] : List Op), isDhcpcd op = false) :=
  ⟨fun _ => List.Perm.refl _, rfl, by decide, by decide, by decide,
    (resolution_fails_only_on_unparsable_mac (testEnv allSucceed) listed macConfig [eth0, eth1]
      [eth0, eth1] (fun _ => List.Perm.refl _) rfl).2.2 (by decide),
    (resolution_fails_only_on_unparsable_mac (testEnv allSucceed) listed unparsableMac
      [eth0, eth1] [eth0, eth1] (fun _ => List.Perm.refl _) rfl).2.1 [] [eth1] eth0
      ⟨none, [], [], [eth0, eth1]⟩ "address zz: invalid MAC address" rfl rfl (by decide)⟩

end Netconf
